import Mathlib

/-!
Verification development for the swarm backend core
(`backend/app/swarm_runtime.py`, `backend/app/swarm_orchestrator.py`,
`backend/app/eval_questions.py`, `backend/app/openrouter_client.py`).

Python values flowing through these modules (JSON-ish dicts, lists,
strings, ints, None) are embedded as the inductive type `Value`.
Python truthiness (`if x:`, `a or b`) is embedded as `Value.truthy`.
Machine-level concerns absent from the code (no fixed-width overflow is
relied upon anywhere) let integers be embedded as `Nat`/`Int` directly.
-/

/-- Embedding of the Python/JSON values the core passes around:
`None`, booleans, integers, strings, lists and dicts. -/
inductive Value where
  | null : Value
  | bool (b : Bool) : Value
  | num (n : Int) : Value
  | str (s : String) : Value
  | arr (xs : List Value) : Value
  | obj (kvs : List (String × Value)) : Value
deriving Repr, BEq

/-- Python truthiness: `None`, `False`, `0`, `""`, `[]`, `{}` are falsy. -/
def Value.truthy : Value → Bool
  | .null => false
  | .bool b => b
  | .num n => n != 0
  | .str s => !s.data.isEmpty
  | .arr xs => !xs.isEmpty
  | .obj kvs => !kvs.isEmpty

/-- `d.get(k)` on a Python dict: the bound value, or `None` when the key is
absent.  Python dicts have unique keys; assoc lists take the first hit. -/
def dictGet (kvs : List (String × Value)) (k : String) : Value :=
  match kvs.lookup k with
  | some v => v
  | none => .null

/-- `k in d` on a Python dict (key presence, distinct from a `None` value). -/
def dictHas (kvs : List (String × Value)) (k : String) : Bool :=
  (kvs.lookup k).isSome

/-- Python `a or b`: `a` when truthy, else `b`. -/
def pyOr (a b : Value) : Value :=
  if a.truthy then a else b

/-- Python `str.strip()`: remove leading and trailing whitespace
(embedded over the character list so that it evaluates by reduction). -/
def pyStrip (s : String) : String :=
  String.mk (((s.data.dropWhile Char.isWhitespace).reverse.dropWhile
    Char.isWhitespace).reverse)

/-- Python `str.lower()` (ASCII). -/
def pyLower (s : String) : String :=
  String.mk (s.data.map Char.toLower)

/-- Whether the first list is an initial segment of the second. -/
def charsStartWith : List Char → List Char → Bool
  | [], _ => true
  | _ :: _, [] => false
  | p :: ps, c :: cs => p == c && charsStartWith ps cs

/-- Python `str.startswith(pat)`. -/
def pyStartsWith (s pat : String) : Bool :=
  charsStartWith pat.data s.data

/-- Python `str.endswith(pat)`. -/
def pyEndsWith (s pat : String) : Bool :=
  charsStartWith pat.data.reverse s.data.reverse

/-- Python `not s.strip()`: the string is empty or whitespace. -/
def isBlank (s : String) : Bool :=
  (pyStrip s).data.isEmpty

/- ------------------------------------------------------------------
eval_questions.py
------------------------------------------------------------------ -/

/-- `EVAL_QUESTION_KEYS = {"id", "category", "question"}` from
`eval_questions.py` (a Python set; embedded as the list of its members). -/
def EVAL_QUESTION_KEYS : List String := ["id", "category", "question"]

/-- The yes/no auxiliary-verb allow-list from `eval_questions.py`
(source constant spelled YES NO PREFIXES with underscores). -/
def YES_NO_STARTERS : List String :=
  ["is ", "are ", "does ", "do ", "did ", "can ", "could ", "should ",
   "would ", "will ", "has ", "have ", "had ", "was ", "were "]

/-- `_looks_like_yes_no_question` from `eval_questions.py`:
strip + lowercase, must end with `?` and start with an allow-listed verb. -/
def looks_like_yes_no_question (question : String) : Bool :=
  let normalized := pyLower (pyStrip question)
  pyEndsWith normalized "?" && YES_NO_STARTERS.any (fun p => pyStartsWith normalized p)

/-- One validated eval question: the Python code returns
`{"id": id_val, "category": cat_val, "question": q_val}`. -/
structure EvalQ where
  id : String
  category : String
  question : String
deriving Repr, DecidableEq

/-- The dict the Python code appends to `result` for one accepted item. -/
def EvalQ.toDict (q : EvalQ) : List (String × Value) :=
  [("id", .str q.id), ("category", .str q.category), ("question", .str q.question)]

/-- The per-item checks of the `for` loop body in `validate_eval_questions`,
in source order: item must be a dict; no missing key; no extra key; then
id, category, question must each be a non-blank string (type and blankness
raise the same message in the source); question must have yes/no shape.
Returns the validated `EvalQ` or the error; `i` is the loop index. -/
def checkEvalItem (i : Nat) (item : Value) : Except String EvalQ :=
  match item with
  | .obj kvs =>
    if !(EVAL_QUESTION_KEYS.all (fun k => dictHas kvs k)) then
      .error s!"eval_questions[{i}]: missing required key"
    else if !((kvs.map Prod.fst).all (fun k => EVAL_QUESTION_KEYS.contains k)) then
      .error s!"eval_questions[{i}]: unexpected keys"
    else
      match dictGet kvs "id" with
      | .str id_val =>
        if isBlank id_val then
          .error s!"eval_questions[{i}]: id must be a non-empty string"
        else
          match dictGet kvs "category" with
          | .str cat_val =>
            if isBlank cat_val then
              .error s!"eval_questions[{i}]: category must be a non-empty string"
            else
              match dictGet kvs "question" with
              | .str q_val =>
                if isBlank q_val then
                  .error s!"eval_questions[{i}]: question must be a non-empty string"
                else if !(looks_like_yes_no_question q_val) then
                  .error s!"eval_questions[{i}]: question must be a yes/no question"
                else
                  .ok { id := id_val, category := cat_val, question := q_val }
              | _ => .error s!"eval_questions[{i}]: question must be a non-empty string"
          | _ => .error s!"eval_questions[{i}]: category must be a non-empty string"
      | _ => .error s!"eval_questions[{i}]: id must be a non-empty string"
  | _ => .error s!"eval_questions[{i}]: expected dict"

/-- The loop of `validate_eval_questions`: item checks in index order,
then the duplicate-id check against `seen_ids`, accumulating results. -/
def evalLoop : List Value → Nat → List String → Except String (List EvalQ)
  | [], _, _ => .ok []
  | item :: rest, i, seen =>
    match checkEvalItem i item with
    | .error e => .error e
    | .ok q =>
      if seen.contains q.id then
        .error s!"eval_questions[{i}]: duplicate id"
      else
        match evalLoop rest (i + 1) (q.id :: seen) with
        | .error e => .error e
        | .ok l => .ok (q :: l)

/-- `validate_eval_questions` from `eval_questions.py`: input must be a
non-empty list; every item passes `checkEvalItem`; ids unique. -/
def validate_eval_questions (raw : Value) : Except String (List EvalQ) :=
  match raw with
  | .arr items =>
    if items.isEmpty then
      .error "eval_questions must contain at least one question"
    else
      evalLoop items 0 []
  | _ => .error "eval_questions must be a list"

/-- One step of building the Python `by_category` dict in
`eval_questions_to_markdown`: append `q` to its category bucket, creating
the bucket at first occurrence (Python dicts preserve insertion order). -/
def groupAdd (acc : List (String × List EvalQ)) (q : EvalQ) : List (String × List EvalQ) :=
  if (acc.lookup q.category).isSome then
    acc.map (fun p => if p.1 = q.category then (p.1, p.2 ++ [q]) else p)
  else
    acc ++ [(q.category, [q])]

/-- The `by_category` grouping loop of `eval_questions_to_markdown`. -/
def groupByCategory (qs : List EvalQ) : List (String × List EvalQ) :=
  qs.foldl groupAdd []

/-- Python `str.title()` (ASCII): uppercase a letter that follows a
non-letter, lowercase the other letters. -/
def pyTitle (s : String) : String :=
  let step := fun (acc : List Char × Bool) (c : Char) =>
    let c' := if acc.2 then c.toLower else c.toUpper
    (acc.1 ++ [c'], c.isAlpha)
  String.mk (s.data.foldl step ([], false)).1

/-- `eval_questions_to_markdown` from `eval_questions.py`. -/
def eval_questions_to_markdown (questions : List EvalQ) : String :=
  let render := fun (p : String × List EvalQ) =>
    let label := pyTitle ((p.1.replace "_" " "))
    s!"## {label}\n\n" ++ String.join (p.2.map (fun q => s!"- **{q.id}**: {q.question}\n")) ++ "\n"
  "# Evaluation Criteria\n\nUse these yes/no questions to evaluate the output.\n"
    ++ String.join ((groupByCategory questions).map render)
    ++ "\n## Pass Condition\n\n- Weighted score >= 0.80"

/- ------------------------------------------------------------------
swarm_orchestrator.py : normalize_spec
------------------------------------------------------------------ -/

/-- `_DEFAULT_EVALUATION` from `swarm_orchestrator.py`. -/
def DEFAULT_EVALUATION : String :=
  "Evaluate the output for correctness, relevance, and quality."

/-- The normalized spec returned by `normalize_spec`: a dict with keys
prompt, input_data, evaluation, and eval_questions only when validated. -/
structure NormalizedSpec where
  prompt : Value
  input_data : Value
  evaluation : Value
  eval_questions : Option (List EvalQ)
deriving Repr

/-- The `raw_input` expression of `normalize_spec`:
`spec.get("input_data") or spec.get("emails") or spec.get("data") or` the
empty dict literal (Python `or` keeps the first truthy operand). -/
def rawInputOf (spec : List (String × Value)) : Value :=
  pyOr (dictGet spec "input_data")
    (pyOr (dictGet spec "emails")
      (pyOr (dictGet spec "data") (.obj [])))

/-- Wrap a top-level array into a generic object, as `normalize_spec` does:
`{"items": raw_input} if isinstance(raw_input, list) else raw_input`. -/
def wrapInput (raw_input : Value) : Value :=
  match raw_input with
  | .arr xs => .obj [("items", .arr xs)]
  | v => v

/-- The `eval_questions` resolution step of `normalize_spec`:
`if "eval_questions" in spec and spec["eval_questions"] is not None:`
then validate (propagating the `ValueError`), else `None`. -/
def evalStepOf (spec : List (String × Value)) : Except String (Option (List EvalQ)) :=
  match spec.lookup "eval_questions" with
  | some .null => .ok none
  | none => .ok none
  | some v => (validate_eval_questions v).map some

/-- `normalize_spec` from `swarm_orchestrator.py`.  A raised `ValueError`
(missing prompt, or invalid `eval_questions`) is the `.error` branch. -/
def normalize_spec (spec : List (String × Value)) : Except String NormalizedSpec :=
  let prompt := pyOr (dictGet spec "prompt_template") (dictGet spec "prompt")
  if !prompt.truthy then
    .error "Spec must contain prompt_template or prompt"
  else
    let input_data := wrapInput (rawInputOf spec)
    match evalStepOf spec with
    | .error e => .error e
    | .ok eval_questions =>
      let fromQuestions : Value :=
        match eval_questions with
        | some qs => if qs.isEmpty then .null else .str (eval_questions_to_markdown qs)
        | none => .null
      let evaluation :=
        pyOr (dictGet spec "evaluation")
          (pyOr (dictGet spec "rubric")
            (pyOr fromQuestions (.str DEFAULT_EVALUATION)))
      .ok { prompt := prompt, input_data := input_data,
            evaluation := evaluation, eval_questions := eval_questions }

/- ------------------------------------------------------------------
openrouter_client.py : the streaming-frame parser
------------------------------------------------------------------ -/

/-- A parsed streaming frame: the terminal done marker, or a chunk dict
with content_delta, reasoning_details, usage and the raw payload. -/
inductive SSEParsed where
  | doneMarker : SSEParsed
  | chunk (content_delta : Value) (reasoning_details : Value)
      (usage : Value) (raw : Value) : SSEParsed
deriving Repr, BEq

/-- Python `payload.get(k)` where `payload` came from `json.loads`: raises
`AttributeError` (the `.error` branch) when `payload` is not a dict. -/
def pyGetOnValue (v : Value) (k : String) : Except String Value :=
  match v with
  | .obj kvs => .ok (dictGet kvs k)
  | _ => .error "AttributeError: object has no attribute get"

/-- Python `x[0]`: raises (`TypeError`/`IndexError`, the `.error` branch)
unless `x` is a non-empty list. -/
def pyIndexZero (v : Value) : Except String Value :=
  match v with
  | .arr (x :: _) => .ok x
  | .arr [] => .error "IndexError: list index out of range"
  | _ => .error "TypeError: object is not subscriptable"

/-- The `payload_text` computed by `_parse_openrouter_sse_line` for a
line: the text after the `data:` marker of the stripped line, stripped. -/
def payloadTextOf (line : String) : String :=
  pyStrip (String.mk ((pyStrip line).data.drop "data:".data.length))

/-- `_parse_openrouter_sse_line` from `openrouter_client.py`, embedded over
an oracle `jsonLoads` for the standard library `json.loads` (`none` models
a `JSONDecodeError`).  The outer `Except` is an uncaught Python exception
escaping the function; `.ok none` is a silently dropped line. -/
def parse_openrouter_sse_line (jsonLoads : String → Option Value)
    (line : String) : Except String (Option SSEParsed) :=
  let stripped := pyStrip line
  if stripped.data.isEmpty || pyStartsWith stripped ":" then .ok none
  else if !pyStartsWith stripped "data:" then .ok none
  else
    let payload_text := payloadTextOf line
    if payload_text = "[DONE]" then .ok (some .doneMarker)
    else
      match jsonLoads payload_text with
      | none => .ok none
      | some payload =>
        match pyGetOnValue payload "choices" with
        | .error e => .error e
        | .ok choicesV =>
          match pyIndexZero (pyOr choicesV (.arr [.obj []])) with
          | .error e => .error e
          | .ok choice =>
            match pyGetOnValue choice "delta" with
            | .error e => .error e
            | .ok deltaV =>
              let delta := pyOr deltaV (.obj [])
              match pyGetOnValue choice "message" with
              | .error e => .error e
              | .ok messageV =>
                let message := pyOr messageV (.obj [])
                match pyGetOnValue delta "content" with
                | .error e => .error e
                | .ok content_delta =>
                  match pyGetOnValue delta "reasoning_details" with
                  | .error e => .error e
                  | .ok rd₁ =>
                    match pyGetOnValue message "reasoning_details" with
                    | .error e => .error e
                    | .ok rd₂ =>
                      let reasoning_details := pyOr rd₁ (pyOr rd₂ (.arr []))
                      match pyGetOnValue payload "usage" with
                      | .error e => .error e
                      | .ok usage =>
                        .ok (some (.chunk content_delta reasoning_details usage payload))

/- ------------------------------------------------------------------
swarm_runtime.py : the run registry / event log

`uuid4()` identifiers are embedded as `Nat` supplied by the caller (the
embedding makes id generation an input).  `now_iso()` wall-clock
timestamps are opaque to every claim and embedded as a constant string.
The Python code stores `event["cursor"] = str(run["cursor"])` and
`get_events` compares `int(e["cursor"])`; since `int` and `str` are
mutually inverse on naturals, the cursor field is embedded as `Nat`.
------------------------------------------------------------------ -/

/-- `now_iso()` timestamp (ambient wall clock, opaque to all claims). -/
def now_iso : String := ""

/-- One chat message of a session. -/
structure SessionMessage where
  role : String
  content : String
  timestamp : String
deriving Repr

/-- A session record as built by `create_session`. -/
structure Session where
  session_id : Nat
  status : String
  messages : List SessionMessage
  draft_prompt : String
  ready_to_confirm : Bool
  created_at : String
deriving Repr

/-- A per-(model, rep) result dict as built by `_run_single_model`.
The completed dict carries chunks and the trace id, the error dict
carries the error text; optional fields model the differing key sets. -/
structure SwarmResult where
  model_id : String
  rep_index : Nat
  status : String
  output : String
  latency_ms : Nat
  usage : Value
  error : Option String
  chunks : Option Nat
  weave_trace_id : Option String
deriving Repr

/-- An event record as built by `add_run_event`.  `extra` is the
`**extra` keyword bag (chunk_index, content_delta, usage, ...). -/
structure Event where
  event_id : String
  cursor : Nat
  run_id : Nat
  session_id : Nat
  agent_id : String
  event_type : String
  phase : String
  content : String
  model : String
  model_id : Option String
  rep_index : Option Nat
  timestamp : String
  weave : List (String × String)
  extra : List (String × Value)
deriving Repr

/-- A run record.  The live queue holds event copies; `none` is the
sentinel dict pushed by `set_run_complete`. -/
structure Run where
  run_id : Nat
  session_id : Nat
  status : String
  events : List Event
  cursor : Nat
  results : List (String × SwarmResult)
  queue : List (Option Event)
  sse_sample_path : String
deriving Repr

/-- The keyword arguments of one `add_run_event` call. -/
structure EventArgs where
  agent_id : String
  event_type : String
  phase : String
  content : String
  model : String
  weave : List (String × String)
  model_id : Option String := none
  rep_index : Option Nat := none
  extra : List (String × Value) := []
deriving Repr

/-- Python `f"evt_\x7bcursor:04d\x7d"` zero-padding to width 4. -/
def pad4 (n : Nat) : String :=
  let s := toString n
  String.mk (List.replicate (4 - s.length) '0') ++ s

/-- `add_run_event` from `swarm_runtime.py`, at the level of the single
run it mutates (`self.runs[run_id]` is in-place update of that run):
increments the cursor, builds the event, appends it to the ordered log
and pushes a copy onto the live queue; returns the event. -/
def Run.add_run_event (run : Run) (a : EventArgs) : Event × Run :=
  let cursor := run.cursor + 1
  let event : Event :=
    { event_id := "evt_" ++ pad4 cursor
      cursor := cursor
      run_id := run.run_id
      session_id := run.session_id
      agent_id := a.agent_id
      event_type := a.event_type
      phase := a.phase
      content := a.content
      model := a.model
      model_id := a.model_id
      rep_index := a.rep_index
      timestamp := now_iso
      weave := a.weave
      extra := a.extra }
  (event,
   { run with
       cursor := cursor
       events := run.events ++ [event]
       queue := run.queue ++ [some event] })

/-- The run dict built by `create_run` (fields before registration). -/
def createRunRecord (run_id session_id : Nat) : Run :=
  { run_id := run_id
    session_id := session_id
    status := "running"
    events := []
    cursor := 0
    results := []
    queue := []
    sse_sample_path := "" }

/-- The in-memory registry (`SwarmRuntime.__init__`).  Dict assignment is
embedded as assoc-list prepend: `List.lookup` finds the newest binding. -/
structure SwarmRuntime where
  sessions : List (Nat × Session)
  runs : List (Nat × Run)
deriving Repr

/-- `create_run` from `swarm_runtime.py`: allocates a fresh run dict with
status running, empty event list, cursor 0, empty result map, and
registers it under the generated run id.  It reads `self.sessions`
nowhere — the given `session_id` is stored unchecked. -/
def SwarmRuntime.create_run (rt : SwarmRuntime) (session_id : Nat)
    (run_id : Nat) : Run × SwarmRuntime :=
  let run := createRunRecord run_id session_id
  (run, { rt with runs := (run_id, run) :: rt.runs })

/-- `get_events` from `swarm_runtime.py`, at the level of the run:
filter to cursors strictly greater than the given one (when present),
then to the given model id (when present), preserving order. -/
def Run.get_events (run : Run) (cursor : Option Nat)
    (model_id : Option String) : List Event :=
  let events := run.events
  let events :=
    match cursor with
    | some c => events.filter (fun e => decide (c < e.cursor))
    | none => events
  match model_id with
  | some m => events.filter (fun e => decide (e.model_id = some m))
  | none => events

/-- `set_model_result` from `swarm_runtime.py`: upsert under the key
`f"\x7bmodel_id\x7d::\x7brep_index\x7d"`; newest binding wins. -/
def Run.set_model_result (run : Run) (model_id : String) (rep_index : Nat)
    (result : SwarmResult) : Run :=
  { run with results := (model_id ++ "::" ++ toString rep_index, result) :: run.results }

/-- The composite result key `f"\x7bmodel_id\x7d::\x7brep_index\x7d"`. -/
def resultKey (model_id : String) (rep_index : Nat) : String :=
  model_id ++ "::" ++ toString rep_index

/-- `set_run_complete` from `swarm_runtime.py`: set status completed and
push the sentinel onto the live queue. -/
def Run.set_run_complete (run : Run) : Run :=
  { run with status := "completed", queue := run.queue ++ [none] }

/- ------------------------------------------------------------------
swarm_orchestrator.py : the model fan-out executor

`asyncio.gather` schedules the per-task coroutines on one cooperative
event loop; every runtime mutation (cursor increment + append + queue
push, result upsert) happens inside one synchronous method call, so any
interleaving yields the same per-task event subsequences, per-task
results and aggregate counts.  The fan-out is embedded as the serialized
execution of the task list in its construction order
(`for rep in range(reps) for model in models`).

`chat_completion_stream` is an external collaborator; each task's stream
is an input `TaskStream`: the chunks it yields, then optionally the
exception it raises, plus the two suspension durations (limiter wait,
stream drive time) in milliseconds for the monotonic-clock reads.
The message payload built by `_build_messages` only parameterizes the
collaborator call, which the `TaskStream` oracle replaces, so it does
not appear in the state model.  `get_settings().weave_project` is the
`weave_project` input.
------------------------------------------------------------------ -/

/-- `ModelSpec` from `model_registry.py`. -/
structure ModelSpec where
  id : String
  name : String
  provider : String
  color : String
deriving Repr, DecidableEq

/-- One task's view of the collaborator stream: the parsed chunks it
yields before ending, the exception it raises after them (if any), and
the two suspension durations in ms (awaiting a limiter slot; driving
the stream until it ends or raises). -/
structure TaskStream where
  items : List SSEParsed
  exn : Option String
  semWaitMs : Nat
  streamMs : Nat

/-- State of the `async for` loop in `_run_single_model`:
(accumulated_text, chunk_count, usage_payload, run). -/
def LoopState := String × Nat × Value × Run

/-- The `async for` loop body of `_run_single_model`: skip done markers;
count every other chunk; on a truthy content delta, accumulate it and
emit a `narration_delta` event with the 1-based chunk index; retain the
latest truthy usage snapshot.  A truthy non-string delta would raise
`TypeError` at `accumulated_text += content_delta` inside the `try`;
that is the `some` exception in the returned pair (the loop stops
there, keeping the state reached so far). -/
def streamLoop (weave_project trace_id call_pfx : String)
    (model : ModelSpec) (rep_index : Nat) :
    List SSEParsed → LoopState → LoopState × Option String
  | [], st => (st, none)
  | .doneMarker :: rest, st =>
    streamLoop weave_project trace_id call_pfx model rep_index rest st
  | .chunk content_delta _rd usage _raw :: rest, (text, cnt, usage_payload, run) =>
    let cnt := cnt + 1
    if content_delta.truthy then
      match content_delta with
      | .str s =>
        let text := text ++ s
        let run := (run.add_run_event
          { agent_id := "multi-model-runner"
            event_type := "narration_delta"
            phase := "execution"
            content := s
            model := model.id
            weave := [("project", weave_project), ("trace_id", trace_id),
                      ("call_id", call_pfx ++ "-chunk-" ++ toString cnt),
                      ("parent_call_id", "")]
            model_id := some model.id
            rep_index := some rep_index
            extra := [("chunk_index", .num cnt), ("content_delta", .str s)] }).2
        let usage_payload := if usage.truthy then usage else usage_payload
        streamLoop weave_project trace_id call_pfx model rep_index rest
          (text, cnt, usage_payload, run)
      | _ => ((text, cnt, usage_payload, run),
              some "TypeError: can only concatenate str to str")
    else
      let usage_payload := if usage.truthy then usage else usage_payload
      streamLoop weave_project trace_id call_pfx model rep_index rest
        (text, cnt, usage_payload, run)

/-- `_run_single_model` from `swarm_orchestrator.py`: emit
`model_run_started`; read `t0 = time.monotonic()` (before the limiter
slot is acquired); drive the stream; then either the error path
(emit `model_run_error`, record a status=error result — the stream
exception is consumed here, never re-raised) or the completion path
(emit `model_run_completed`, record a status=completed result).
Total: it returns a result for every input. -/
def run_single_model (weave_project : String) (run : Run)
    (model : ModelSpec) (rep_index : Nat) (stream : TaskStream) :
    SwarmResult × Run :=
  let trace_id := s!"trace-{run.run_id}-{model.id}-{rep_index}"
  let call_pfx := s!"call-{run.run_id}-{model.id}-{rep_index}"
  let run := (run.add_run_event
    { agent_id := "multi-model-runner"
      event_type := "model_run_started"
      phase := "execution"
      content := s!"Starting {model.name} rep {rep_index}"
      model := model.id
      weave := [("project", weave_project), ("trace_id", trace_id),
                ("call_id", call_pfx ++ "-start"), ("parent_call_id", "")]
      model_id := some model.id
      rep_index := some rep_index }).2
  -- t0 = time.monotonic() is read HERE, before `async with semaphore:`
  let t0 := 0
  let tAcquired := t0 + stream.semWaitMs
  let loopOut :=
    streamLoop weave_project trace_id call_pfx model rep_index
      stream.items ("", 0, .null, run)
  let text := loopOut.1.1
  let cnt := loopOut.1.2.1
  let usage_payload := loopOut.1.2.2.1
  let run := loopOut.1.2.2.2
  let loopExn := loopOut.2
  let tEnd := tAcquired + stream.streamMs
  let latency_ms := tEnd - t0
  match (match loopExn with | some e => some e | none => stream.exn) with
  | some e =>
    let run := (run.add_run_event
      { agent_id := "multi-model-runner"
        event_type := "model_run_error"
        phase := "execution"
        content := s!"Error on {model.name} rep {rep_index}: {e}"
        model := model.id
        weave := [("project", weave_project), ("trace_id", trace_id),
                  ("call_id", call_pfx ++ "-error"), ("parent_call_id", "")]
        model_id := some model.id
        rep_index := some rep_index }).2
    let result : SwarmResult :=
      { model_id := model.id
        rep_index := rep_index
        status := "error"
        output := text
        latency_ms := latency_ms
        usage := .null
        error := some e
        chunks := none
        weave_trace_id := none }
    (result, run.set_model_result model.id rep_index result)
  | none =>
    let run := (run.add_run_event
      { agent_id := "multi-model-runner"
        event_type := "model_run_completed"
        phase := "execution"
        content := s!"Completed {model.name} rep {rep_index} ({latency_ms}ms, {cnt} chunks)"
        model := model.id
        weave := [("project", weave_project), ("trace_id", trace_id),
                  ("call_id", call_pfx ++ "-done"), ("parent_call_id", "")]
        model_id := some model.id
        rep_index := some rep_index
        extra := [("usage", usage_payload)] }).2
    let result : SwarmResult :=
      { model_id := model.id
        rep_index := rep_index
        status := "completed"
        output := text
        latency_ms := latency_ms
        usage := usage_payload
        error := none
        chunks := some cnt
        weave_trace_id := some trace_id }
    (result, run.set_model_result model.id rep_index result)

/-- The task list of `run_swarm`:
`[... for rep in range(reps) for model in models]`. -/
def taskPairs (models : List ModelSpec) (reps : Nat) : List (ModelSpec × Nat) :=
  (List.range reps).flatMap (fun rep => models.map (fun m => (m, rep)))

/-- Serialized execution of the gathered tasks in construction order,
collecting each task's result (`asyncio.gather(..., return_exceptions=True)`;
`_run_single_model` is total, so no exception placeholders arise). -/
def swarmLoop (weave_project : String) (streams : String → Nat → TaskStream) :
    List (ModelSpec × Nat) → Run → List SwarmResult × Run
  | [], run => ([], run)
  | (model, rep) :: rest, run =>
    let out := run_single_model weave_project run model rep (streams model.id rep)
    let rest_out := swarmLoop weave_project streams rest out.2
    (out.1 :: rest_out.1, rest_out.2)

/-- `run_swarm` from `swarm_orchestrator.py`: emit `run_started`, run all
models × reps tasks, emit `run_completed` with the completed/errored
counts, mark the run complete; return the collected results. -/
def run_swarm (weave_project : String) (run : Run) (models : List ModelSpec)
    (reps : Nat) (streams : String → Nat → TaskStream) :
    List SwarmResult × Run :=
  let total_tasks := models.length * reps
  let run := (run.add_run_event
    { agent_id := "swarm"
      event_type := "run_started"
      phase := "bootstrap"
      content := s!"Swarm started: {models.length} models x {reps} reps = {total_tasks} tasks"
      model := "swarm"
      weave := [("project", weave_project), ("trace_id", s!"trace-{run.run_id}"),
                ("call_id", s!"call-{run.run_id}-start"), ("parent_call_id", "")] }).2
  let loopOut := swarmLoop weave_project streams (taskPairs models reps) run
  let collected := loopOut.1
  let run := loopOut.2
  let completed := (collected.filter (fun r => r.status == "completed")).length
  let errored := total_tasks - completed
  let run := (run.add_run_event
    { agent_id := "swarm"
      event_type := "run_completed"
      phase := "done"
      content := s!"Swarm finished: {completed}/{total_tasks} succeeded, {errored} errors"
      model := "swarm"
      weave := [("project", weave_project), ("trace_id", s!"trace-{run.run_id}"),
                ("call_id", s!"call-{run.run_id}-done"), ("parent_call_id", "")] }).2
  (collected, run.set_run_complete)

/- ------------------------------------------------------------------
Proof layer: event-log lemmas
------------------------------------------------------------------ -/

/-- A sequence of successful `add_run_event` calls on one run, returning
the events in call order together with the final run state. -/
def addEvents : Run → List EventArgs → List Event × Run
  | run, [] => ([], run)
  | run, a :: as =>
    ((run.add_run_event a).1 :: (addEvents (run.add_run_event a).2 as).1,
     (addEvents (run.add_run_event a).2 as).2)

theorem add_run_event_snd_events (run : Run) (a : EventArgs) :
    (run.add_run_event a).2.events = run.events ++ [(run.add_run_event a).1] := rfl

theorem add_run_event_snd_cursor (run : Run) (a : EventArgs) :
    (run.add_run_event a).2.cursor = run.cursor + 1 := rfl

theorem add_run_event_fst_cursor (run : Run) (a : EventArgs) :
    (run.add_run_event a).1.cursor = run.cursor + 1 := rfl

theorem add_run_event_snd_results (run : Run) (a : EventArgs) :
    (run.add_run_event a).2.results = run.results := rfl

/-- The events stored by a call sequence are the initial log followed by
the returned events, in order. -/
theorem addEvents_events : ∀ (as : List EventArgs) (run : Run),
    (addEvents run as).2.events = run.events ++ (addEvents run as).1
  | [], run => by simp [addEvents]
  | a :: as, run => by
    simp only [addEvents]
    rw [addEvents_events as, add_run_event_snd_events]
    simp

theorem addEvents_cursor : ∀ (as : List EventArgs) (run : Run),
    (addEvents run as).2.cursor = run.cursor + as.length
  | [], run => by simp [addEvents]
  | a :: as, run => by
    simp only [addEvents]
    rw [addEvents_cursor as, add_run_event_snd_cursor]
    simp +arith [Nat.add_assoc]

/-- The cursors returned by a call sequence starting at cursor `c` are
exactly `c+1, c+2, ...` in call order. -/
theorem addEvents_cursor_map : ∀ (as : List EventArgs) (run : Run),
    (addEvents run as).1.map (·.cursor) = List.range' (run.cursor + 1) as.length
  | [], run => by simp [addEvents]
  | a :: as, run => by
    simp only [addEvents, List.map_cons, List.length_cons]
    rw [addEvents_cursor_map as, add_run_event_fst_cursor, add_run_event_snd_cursor,
      List.range'_succ]

/-- Events whose cursors form `range' s n` all survive the
`cursor > c` page filter when `c < s`. -/
theorem filter_cursor_all {es : List Event} {c s n : Nat}
    (h : es.map (·.cursor) = List.range' s n) (hgt : c < s) :
    es.filter (fun e => decide (c < e.cursor)) = es := by
  apply List.filter_eq_self.mpr
  intro e he
  have : e.cursor ∈ List.range' s n := h ▸ List.mem_map_of_mem (·.cursor) he
  have hs := (List.mem_range'_1.mp this).1
  exact decide_eq_true (lt_of_lt_of_le hgt hs)

/-- Events whose cursors form `range' s n` are all dropped by the
`cursor > c` page filter when `s + n ≤ c + 1`. -/
theorem filter_cursor_none {es : List Event} {c s n : Nat}
    (h : es.map (·.cursor) = List.range' s n) (hle : s + n ≤ c + 1) :
    es.filter (fun e => decide (c < e.cursor)) = [] := by
  apply List.filter_eq_nil_iff.mpr
  intro e he
  have : e.cursor ∈ List.range' s n := h ▸ List.mem_map_of_mem (·.cursor) he
  have hub := (List.mem_range'_1.mp this).2
  simp only [decide_eq_true_eq, not_lt]
  omega

/-- `get_events` with a cursor and no model filter is the page filter. -/
theorem get_events_cursor (run : Run) (c : Nat) :
    run.get_events (some c) none = run.events.filter (fun e => decide (c < e.cursor)) := rfl

theorem get_events_none (run : Run) :
    run.get_events none none = run.events := rfl

/- ------------------------------------------------------------------
Claims C1, C2, C10
------------------------------------------------------------------ -/

/-- C1: for every run and every sequence of N successful `add_run_event`
calls on that run (starting from the freshly created run, cursor 0), the
cursors of the returned events are exactly the integers 1..N in call
order (`List.range' 1 N`), strictly increasing with no gaps or repeats,
and the events stored in the log at append time are exactly the
returned events in the same order. -/
theorem C1_cursors_one_to_N (rid sid : Nat) (as : List EventArgs) :
    ((addEvents (createRunRecord rid sid) as).1.map (·.cursor) = List.range' 1 as.length)
    ∧ ((addEvents (createRunRecord rid sid) as).1.map (·.cursor)).Pairwise (· < ·)
    ∧ (addEvents (createRunRecord rid sid) as).2.events = (addEvents (createRunRecord rid sid) as).1 := by
  have hmap := addEvents_cursor_map as (createRunRecord rid sid)
  have : (createRunRecord rid sid).cursor + 1 = 1 := rfl
  rw [this] at hmap
  refine ⟨hmap, ?_, ?_⟩
  · rw [hmap]; exact List.pairwise_lt_range' 1 as.length
  · rw [addEvents_events]; rfl

/-- C2: `get_events` with cursor `c` returns precisely the stored events
with cursor > c, preserving original order (a sublist with the exact
membership condition); it is idempotent (a pure function of the run);
and paging with `cursor=None` then with the last returned cursor
partitions the full event sequence with no overlap and no omission
(the two pages concatenate to exactly the full log). -/
theorem C2_get_events_pagination (rid sid : Nat) (as₁ as₂ : List EventArgs)
    (r₀ r₁ : Run)
    (hr₀ : r₀ = (addEvents (createRunRecord rid sid) as₁).2)
    (hr₁ : r₁ = (addEvents r₀ as₂).2)
    (hne : as₁ ≠ []) :
    (∀ c, (r₁.get_events (some c) none).Sublist r₁.events
      ∧ (∀ e, e ∈ r₁.get_events (some c) none ↔ e ∈ r₁.events ∧ c < e.cursor)
      ∧ r₁.get_events (some c) none = r₁.get_events (some c) none)
    ∧ (r₀.get_events none none).getLast?.map (·.cursor) = some r₀.cursor
    ∧ r₀.get_events none none ++ r₁.get_events (some r₀.cursor) none = r₁.events := by
  have hev₀ : r₀.events = (addEvents (createRunRecord rid sid) as₁).1 := by
    rw [hr₀, addEvents_events]; rfl
  have hmap₀ : r₀.events.map (·.cursor) = List.range' 1 as₁.length := by
    rw [hev₀]
    have := addEvents_cursor_map as₁ (createRunRecord rid sid)
    simpa using this
  have hcur₀ : r₀.cursor = as₁.length := by
    rw [hr₀, addEvents_cursor]
    simp [createRunRecord]
  have hev₁ : r₁.events = r₀.events ++ (addEvents r₀ as₂).1 := by
    rw [hr₁, addEvents_events]
  have hmap₂ : (addEvents r₀ as₂).1.map (·.cursor) = List.range' (r₀.cursor + 1) as₂.length :=
    addEvents_cursor_map as₂ r₀
  refine ⟨?_, ?_, ?_⟩
  · intro c
    rw [get_events_cursor]
    refine ⟨List.filter_sublist _, ?_, rfl⟩
    intro e
    simp [List.mem_filter]
  · rw [get_events_none, ← List.getLast?_map, hmap₀, hcur₀]
    obtain ⟨n, hn⟩ : ∃ n, as₁.length = n + 1 :=
      ⟨as₁.length - 1, by cases as₁ with
        | nil => exact absurd rfl hne
        | cons a t => simp⟩
    rw [hn, List.range'_1_concat]
    simp [Nat.add_comm]
  · rw [get_events_none, get_events_cursor, hev₁, List.filter_append,
      filter_cursor_none hmap₀ (by omega),
      filter_cursor_all hmap₂ (by omega)]
    simp

/-- A sample `add_run_event` argument bundle for concrete instantiation. -/
def sampleArgs : EventArgs :=
  { agent_id := "swarm", event_type := "run_started", phase := "bootstrap",
    content := "go", model := "swarm", weave := [] }

/-- Witness for C2 at a concrete two-call history followed by one more
call, checking the partition concretely. -/
theorem C2_get_events_pagination_witness :
    ((addEvents (createRunRecord 7 3) [sampleArgs, sampleArgs]).2.get_events none none)
      ++ (((addEvents (addEvents (createRunRecord 7 3) [sampleArgs, sampleArgs]).2 [sampleArgs]).2).get_events
            (some (addEvents (createRunRecord 7 3) [sampleArgs, sampleArgs]).2.cursor) none)
      = (addEvents (addEvents (createRunRecord 7 3) [sampleArgs, sampleArgs]).2 [sampleArgs]).2.events :=
  (C2_get_events_pagination 7 3 [sampleArgs, sampleArgs] [sampleArgs] _ _ rfl rfl
    (by simp)).2.2

/-- C10: `create_run` never consults the session table: for every
registry state and every session id (no hypothesis that the session
exists), it succeeds, allocates a run with status `running`, cursor 0,
empty event list and empty result map, registers it under the new run
id, and leaves the session table untouched. -/
theorem C10_create_run_unchecked (rt : SwarmRuntime) (sid rid : Nat) :
    (rt.create_run sid rid).1.status = "running"
    ∧ (rt.create_run sid rid).1.cursor = 0
    ∧ (rt.create_run sid rid).1.events = []
    ∧ (rt.create_run sid rid).1.results = []
    ∧ (rt.create_run sid rid).1.session_id = sid
    ∧ (rt.create_run sid rid).2.runs.lookup rid = some (rt.create_run sid rid).1
    ∧ (rt.create_run sid rid).2.sessions = rt.sessions := by
  refine ⟨rfl, rfl, rfl, rfl, rfl, ?_, rfl⟩
  simp [SwarmRuntime.create_run, List.lookup]

/- ------------------------------------------------------------------
Proof layer: eval-question validator characterization
------------------------------------------------------------------ -/

/-- The id string of an item (empty when absent or not a string). -/
def itemIdOf (item : Value) : String :=
  match item with
  | .obj kvs => match dictGet kvs "id" with | .str s => s | _ => ""
  | _ => ""

/-- The category string of an item (empty when absent or not a string). -/
def itemCatOf (item : Value) : String :=
  match item with
  | .obj kvs => match dictGet kvs "category" with | .str s => s | _ => ""
  | _ => ""

/-- The question string of an item (empty when absent or not a string). -/
def itemQOf (item : Value) : String :=
  match item with
  | .obj kvs => match dictGet kvs "question" with | .str s => s | _ => ""
  | _ => ""

/-- The question record an accepted item validates to. -/
def extractQ (item : Value) : EvalQ :=
  { id := itemIdOf item, category := itemCatOf item, question := itemQOf item }

/-- A value that is a non-blank string. -/
def strNB : Value → Bool
  | .str s => !(isBlank s)
  | _ => false

/-- A value that is a non-blank string of yes/no-question shape. -/
def strQOk : Value → Bool
  | .str s => !(isBlank s) && looks_like_yes_no_question s
  | _ => false

/-- Flat boolean form of the per-item checks of the validator. -/
def itemOkB (item : Value) : Bool :=
  match item with
  | .obj kvs =>
    (EVAL_QUESTION_KEYS.all fun k => dictHas kvs k)
    && ((kvs.map Prod.fst).all fun k => EVAL_QUESTION_KEYS.contains k)
    && strNB (dictGet kvs "id")
    && strNB (dictGet kvs "category")
    && strQOk (dictGet kvs "question")
  | _ => false

/-- Declarative per-item well-formedness, stated from the spec's
enumeration of the accepted shape: a dict whose keys are exactly
id/category/question, each bound to a non-blank string, the question of
yes/no shape.  Compared below with the source's fail-fast validator. -/
def ItemWF (item : Value) : Prop :=
  ∃ kvs, item = Value.obj kvs
    ∧ (∀ k ∈ EVAL_QUESTION_KEYS, dictHas kvs k = true)
    ∧ (∀ k ∈ kvs.map Prod.fst, k ∈ EVAL_QUESTION_KEYS)
    ∧ (∃ s, dictGet kvs "id" = .str s ∧ isBlank s = false)
    ∧ (∃ s, dictGet kvs "category" = .str s ∧ isBlank s = false)
    ∧ (∃ s, dictGet kvs "question" = .str s ∧ isBlank s = false
        ∧ looks_like_yes_no_question s = true)

theorem checkEvalItem_isOk_eq (i : Nat) (item : Value) :
    (checkEvalItem i item).isOk = itemOkB item := by
  cases item <;> try rfl
  case obj kvs =>
    unfold checkEvalItem itemOkB
    repeat' split
    all_goals (try simp_all [Except.isOk, Except.toBool, List.all_eq_false, List.all_eq_true, strNB, strQOk])
    all_goals (intro x v hxv; exact (by assumption : ∀ (x : String) (v : Value), (x, v) ∈ _ → x ∈ EVAL_QUESTION_KEYS) x v hxv)

theorem checkEvalItem_eq_ok (i : Nat) (item : Value) (h : itemOkB item = true) :
    checkEvalItem i item = .ok (extractQ item) := by
  cases item
  case obj kvs =>
    simp only [itemOkB, Bool.and_eq_true] at h
    obtain ⟨⟨⟨⟨h1, h2⟩, h3⟩, h4⟩, h5⟩ := h
    cases hid : dictGet kvs "id" <;> rw [hid] at h3 <;> simp [strNB] at h3
    case str ids =>
    cases hcat : dictGet kvs "category" <;> rw [hcat] at h4 <;> simp [strNB] at h4
    case str cats =>
    cases hq : dictGet kvs "question" <;> rw [hq] at h5 <;> simp [strQOk] at h5
    case str qs =>
    simp [checkEvalItem, h1, h2, hid, hcat, hq, h3, h4, h5, extractQ,
      itemIdOf, itemCatOf, itemQOf]
    intro x v hxv
    have hc := List.all_eq_true.mp h2 x (List.mem_map_of_mem Prod.fst hxv)
    simpa using hc
  all_goals simp [itemOkB] at h

theorem checkEvalItem_ok_val (i : Nat) (item : Value) (q : EvalQ)
    (h : checkEvalItem i item = .ok q) : q = extractQ item := by
  have hok : itemOkB item = true := by
    rw [← checkEvalItem_isOk_eq i, h]; rfl
  have h2 := checkEvalItem_eq_ok i item hok
  rw [h] at h2
  exact Except.ok.inj h2

theorem strNB_iff (v : Value) : strNB v = true ↔ ∃ s, v = .str s ∧ isBlank s = false := by
  cases v <;> simp [strNB]

theorem strQOk_iff (v : Value) :
    strQOk v = true ↔ ∃ s, v = .str s ∧ isBlank s = false ∧ looks_like_yes_no_question s = true := by
  cases v <;> simp [strQOk]

theorem itemOkB_iff_WF (item : Value) : itemOkB item = true ↔ ItemWF item := by
  cases item
  case obj kvs =>
    have hred : ItemWF (Value.obj kvs) ↔
        ((∀ k ∈ EVAL_QUESTION_KEYS, dictHas kvs k = true)
          ∧ (∀ k ∈ kvs.map Prod.fst, k ∈ EVAL_QUESTION_KEYS)
          ∧ (∃ s, dictGet kvs "id" = .str s ∧ isBlank s = false)
          ∧ (∃ s, dictGet kvs "category" = .str s ∧ isBlank s = false)
          ∧ (∃ s, dictGet kvs "question" = .str s ∧ isBlank s = false
              ∧ looks_like_yes_no_question s = true)) := by
      constructor
      · rintro ⟨kvs', heq, h⟩
        cases Value.obj.inj heq
        exact h
      · intro h
        exact ⟨kvs, rfl, h⟩
    rw [hred]
    simp [itemOkB, Bool.and_eq_true, strNB_iff, strQOk_iff, List.all_eq_true,
      and_assoc, List.elem_iff]
  all_goals simp [itemOkB, ItemWF]

/-- Helper: consing a head onto the tail result preserves success. -/
theorem consMap_isOk (q : EvalQ) (x : Except String (List EvalQ)) :
    (match x with
      | Except.error e => Except.error e
      | Except.ok l => Except.ok (q :: l)).isOk = x.isOk := by
  cases x <;> rfl

/-- The fail-fast loop succeeds exactly when every item is well-formed,
the ids are pairwise distinct, and no id collides with the seen set. -/
theorem evalLoop_isOk_iff : ∀ (items : List Value) (i : Nat) (seen : List String),
    (evalLoop items i seen).isOk = true ↔
      ((∀ it ∈ items, itemOkB it = true)
        ∧ (items.map itemIdOf).Nodup
        ∧ ∀ s ∈ items.map itemIdOf, s ∉ seen)
  | [], i, seen => by simp [evalLoop, Except.isOk, Except.toBool]
  | item :: rest, i, seen => by
    simp only [evalLoop]
    cases hchk : checkEvalItem i item with
    | error e =>
      have hnok : ¬ itemOkB item = true := by
        intro hok
        rw [checkEvalItem_eq_ok i item hok] at hchk
        exact Except.noConfusion hchk
      simp only [Except.isOk, Except.toBool]
      constructor
      · intro hfalse; exact absurd hfalse (by simp)
      · rintro ⟨hall, -, -⟩
        exact absurd (hall item (by simp)) hnok
    | ok q =>
      have hok : itemOkB item = true := by
        rw [← checkEvalItem_isOk_eq i, hchk]; rfl
      have hqv : q = extractQ item := checkEvalItem_ok_val i item q hchk
      subst hqv
      cases hc : seen.contains (extractQ item).id with
      | true =>
        have hmem : itemIdOf item ∈ seen := List.elem_iff.mp hc
        simp only [hc, if_true, Except.isOk, Except.toBool]
        constructor
        · intro hfalse; exact absurd hfalse (by simp)
        · rintro ⟨-, -, hns⟩
          exact absurd hmem (hns (itemIdOf item) (by simp))
      | false =>
        have hnmem : itemIdOf item ∉ seen := by
          intro hm
          have h2 : seen.contains (extractQ item).id = true := List.elem_iff.mpr hm
          rw [h2] at hc
          exact Bool.noConfusion hc
        simp only [hc, if_false, Bool.false_eq_true, consMap_isOk,
          evalLoop_isOk_iff rest (i + 1) ((extractQ item).id :: seen)]
        constructor
        · rintro ⟨hall, hnd, hns⟩
          refine ⟨?_, ?_, ?_⟩
          · intro it hit
            rcases List.mem_cons.mp hit with h | h
            · exact h ▸ hok
            · exact hall it h
          · refine List.nodup_cons.mpr ⟨?_, hnd⟩
            intro hmm
            exact (hns (itemIdOf item) hmm) (by simp [extractQ])
          · intro s hs
            rcases List.mem_cons.mp hs with h | h
            · exact h ▸ hnmem
            · intro hcon
              exact (hns s h) (List.mem_cons_of_mem _ hcon)
        · rintro ⟨hall, hnd, hns⟩
          refine ⟨?_, ?_, ?_⟩
          · intro it hit
            exact hall it (List.mem_cons_of_mem _ hit)
          · rw [List.map_cons] at hnd
            exact (List.nodup_cons.mp hnd).2
          · intro s hs
            intro hcon
            rcases List.mem_cons.mp hcon with h | h
            · rw [List.map_cons] at hnd
              refine (List.nodup_cons.mp hnd).1 ?_
              have : s = itemIdOf item := h
              exact this ▸ hs
            · exact (hns s (List.mem_cons_of_mem _ hs)) h

/-- On success the loop returns exactly the items' field triples. -/
theorem evalLoop_ok_val : ∀ (items : List Value) (i : Nat) (seen : List String)
    (l : List EvalQ), evalLoop items i seen = .ok l → l = items.map extractQ
  | [], i, seen, l => by
    intro h
    simp only [evalLoop] at h
    simpa using (Except.ok.inj h).symm
  | item :: rest, i, seen, l => by
    intro h
    simp only [evalLoop] at h
    cases hchk : checkEvalItem i item with
    | error e => rw [hchk] at h; exact Except.noConfusion h
    | ok q =>
      rw [hchk] at h
      dsimp only at h
      cases hc : seen.contains q.id
      · rw [hc] at h
        simp only [Bool.false_eq_true, if_false] at h
        cases hrest : evalLoop rest (i + 1) (q.id :: seen) with
        | error e => rw [hrest] at h; exact Except.noConfusion h
        | ok l' =>
          rw [hrest] at h
          have hl : l = q :: l' := (Except.ok.inj h).symm
          have hq := checkEvalItem_ok_val i item q hchk
          rw [hl, hq, evalLoop_ok_val rest (i + 1) (q.id :: seen) l' hrest]
          simp
      · rw [hc] at h
        simp at h

/-- C6: `validate_eval_questions` accepts exactly the non-empty lists of
well-formed items (each a dict with exactly the keys id/category/question
bound to non-blank strings, the question ending in `?` and starting with
an allow-listed auxiliary verb after trimming and lowercasing) with
pairwise-distinct ids; everything else is rejected with a validation
error, atomically (an `Except.error` result carries no partial list).
On acceptance it returns the items themselves, each with exactly the
keys id/category/question. -/
theorem C6_validate_rejects_and_accepts (raw : Value) :
    ((validate_eval_questions raw).isOk = true ↔
      ∃ items, raw = .arr items ∧ items ≠ []
        ∧ (∀ it ∈ items, ItemWF it)
        ∧ (items.map itemIdOf).Nodup)
    ∧ (∀ l, validate_eval_questions raw = .ok l →
        (∀ q ∈ l, q.toDict.map Prod.fst = EVAL_QUESTION_KEYS)
        ∧ ∀ items, raw = .arr items → l = items.map extractQ) := by
  constructor
  · cases raw
    case arr items =>
      cases items with
      | nil => simp [validate_eval_questions, Except.isOk, Except.toBool]
      | cons a t =>
        have hne : (a :: t).isEmpty = false := rfl
        simp only [validate_eval_questions, hne, Bool.false_eq_true, if_false]
        rw [evalLoop_isOk_iff]
        constructor
        · rintro ⟨hall, hnd, -⟩
          exact ⟨a :: t, rfl, by simp,
            fun it hit => (itemOkB_iff_WF it).mp (hall it hit), hnd⟩
        · rintro ⟨items', heq, -, hwf, hnd⟩
          cases Value.arr.inj heq
          exact ⟨fun it hit => (itemOkB_iff_WF it).mpr (hwf it hit), hnd, by simp⟩
    all_goals simp [validate_eval_questions, Except.isOk, Except.toBool]
  · intro l hok
    refine ⟨fun q _ => rfl, ?_⟩
    intro items heq
    subst heq
    cases items with
    | nil => simp [validate_eval_questions] at hok
    | cons a t =>
      have hne : (a :: t).isEmpty = false := rfl
      simp only [validate_eval_questions, hne, Bool.false_eq_true, if_false] at hok
      exact evalLoop_ok_val (a :: t) 0 [] l hok

/-- A concrete well-formed eval question item. -/
def goodItem : Value :=
  .obj [("id", .str "q1"), ("category", .str "accuracy"),
        ("question", .str "Is it correct?")]

/-- Witness for C6: the validator accepts a concrete well-formed
singleton list and returns exactly its field triple. -/
theorem C6_validate_rejects_and_accepts_witness :
    (validate_eval_questions (.arr [goodItem])).isOk = true
    ∧ [goodItem].map extractQ
        = [{ id := "q1", category := "accuracy", question := "Is it correct?" }] := by
  constructor
  · exact (C6_validate_rejects_and_accepts (.arr [goodItem])).1.mpr
      ⟨[goodItem], rfl, by simp,
        fun it hit => by
          rw [List.mem_singleton.mp hit]
          exact (itemOkB_iff_WF goodItem).mp (by decide),
        by decide⟩
  · rfl

/- ------------------------------------------------------------------
Claims C5, C9: normalize_spec
------------------------------------------------------------------ -/

/-- On success, the normalized prompt and input data are resolved by the
truthiness chains of the source. -/
theorem normalize_spec_ok_fields (spec : List (String × Value)) (r : NormalizedSpec)
    (hr : normalize_spec spec = .ok r) :
    r.prompt = pyOr (dictGet spec "prompt_template") (dictGet spec "prompt")
    ∧ r.input_data = wrapInput (pyOr (dictGet spec "input_data")
        (pyOr (dictGet spec "emails") (pyOr (dictGet spec "data") (.obj [])))) := by
  unfold normalize_spec at hr
  dsimp only at hr
  repeat' split at hr
  all_goals try exact Except.noConfusion hr
  all_goals (cases Except.ok.inj hr; exact ⟨rfl, rfl⟩)

/-- `Except.map` preserves exactly the error. -/
theorem Except_map_error_iff (x : Except String (List EvalQ))
    (f : List EvalQ → Option (List EvalQ)) (e : String) :
    (x.map f = .error e) ↔ x = .error e := by
  cases x <;> simp [Except.map]

/-- The eval step fails exactly when a non-null `eval_questions` entry
fails validation. -/
theorem evalStepOf_error_iff (spec : List (String × Value)) :
    (∃ e, evalStepOf spec = .error e) ↔
      ∃ v, spec.lookup "eval_questions" = some v ∧ v ≠ .null
        ∧ ∃ e, validate_eval_questions v = .error e := by
  unfold evalStepOf
  cases hl : List.lookup "eval_questions" spec with
  | none => simp
  | some v => cases v <;> simp [Except_map_error_iff]

/-- `normalize_spec` raises exactly when the prompt chain is falsy, or a
non-null `eval_questions` entry fails validation. -/
theorem normalize_spec_error_iff (spec : List (String × Value)) :
    (∃ e, normalize_spec spec = .error e) ↔
      (pyOr (dictGet spec "prompt_template") (dictGet spec "prompt")).truthy = false
      ∨ (∃ v, spec.lookup "eval_questions" = some v ∧ v ≠ .null
           ∧ ∃ e, validate_eval_questions v = .error e) := by
  constructor
  · rintro ⟨e, he⟩
    unfold normalize_spec at he
    dsimp only at he
    by_cases hp : (pyOr (dictGet spec "prompt_template") (dictGet spec "prompt")).truthy = true
    · rw [if_neg (by simp [hp])] at he
      cases hs : evalStepOf spec with
      | error e' => exact Or.inr ((evalStepOf_error_iff spec).mp ⟨e', hs⟩)
      | ok qs =>
        rw [hs] at he
        dsimp only at he
        exact Except.noConfusion he
    · exact Or.inl (by simpa using hp)
  · rintro (hp | hev)
    · refine ⟨"Spec must contain prompt_template or prompt", ?_⟩
      unfold normalize_spec
      dsimp only
      rw [if_pos (by simp [hp])]
    · obtain ⟨e, hs⟩ : ∃ e, evalStepOf spec = .error e :=
        (evalStepOf_error_iff spec).mpr hev
      by_cases hp : (pyOr (dictGet spec "prompt_template") (dictGet spec "prompt")).truthy = true
      · refine ⟨e, ?_⟩
        unfold normalize_spec
        dsimp only
        rw [if_neg (by simp [hp]), hs]
      · refine ⟨"Spec must contain prompt_template or prompt", ?_⟩
        unfold normalize_spec
        dsimp only
        rw [if_pos (by simp [Bool.eq_false_iff.mpr hp])]

/-- Counterexample to C5 as stated: `normalize_spec` can fail although a
non-empty `prompt` key is present — the spec
`{"prompt": "x", "eval_questions": []}` raises (empty `eval_questions`
fails validation), refuting "fails ... exactly when neither a
prompt_template nor a prompt key is present and non-empty". -/
theorem C5_counterexample :
    normalize_spec [("prompt", .str "x"), ("eval_questions", .arr [])]
        = .error "eval_questions must contain at least one question"
    ∧ (dictGet [("prompt", .str "x"), ("eval_questions", .arr [])] "prompt").truthy = true := by
  exact ⟨rfl, rfl⟩

/-- C5 amended: `normalize_spec` fails with a validation error exactly
when the prompt chain (`prompt_template`, else `prompt`) is falsy, OR a
present, non-null `eval_questions` entry fails validation; on success it
resolves the prompt by that chain and the input data from `input_data`,
else `emails`, else `data`, else the empty object (first truthy wins),
wrapping a top-level array into an `items` object; and the concrete case
`normalize_spec({"prompt_template": "Do X", "input_data": {"a": 1}})`
returns prompt "Do X", that input data, and the default evaluation. -/
theorem C5_normalize_spec_amended (spec : List (String × Value)) :
    ((∃ e, normalize_spec spec = .error e) ↔
      (pyOr (dictGet spec "prompt_template") (dictGet spec "prompt")).truthy = false
      ∨ (∃ v, spec.lookup "eval_questions" = some v ∧ v ≠ .null
           ∧ ∃ e, validate_eval_questions v = .error e))
    ∧ (∀ r, normalize_spec spec = .ok r →
        r.prompt = pyOr (dictGet spec "prompt_template") (dictGet spec "prompt")
        ∧ r.input_data = wrapInput (pyOr (dictGet spec "input_data")
            (pyOr (dictGet spec "emails") (pyOr (dictGet spec "data") (.obj [])))))
    ∧ normalize_spec [("prompt_template", .str "Do X"), ("input_data", .obj [("a", .num 1)])]
        = .ok { prompt := .str "Do X", input_data := .obj [("a", .num 1)],
                evaluation := .str "Evaluate the output for correctness, relevance, and quality.",
                eval_questions := none } := by
  refine ⟨normalize_spec_error_iff spec, ?_, rfl⟩
  intro r hr
  exact normalize_spec_ok_fields spec r hr

/-- Witness for C5 amended at concrete inputs: a promptless spec fails,
and a spec with a truthy prompt and no eval_questions succeeds with the
resolved fields. -/
theorem C5_normalize_spec_amended_witness :
    (∃ e, normalize_spec [("data", .num 1)] = .error e)
    ∧ (normalize_spec [("prompt", .str "P"), ("emails", .arr [.num 1, .num 2])]).isOk = true := by
  constructor
  · exact (C5_normalize_spec_amended [("data", .num 1)]).1.mpr (Or.inl rfl)
  · have := (C5_normalize_spec_amended [("prompt", .str "P"), ("emails", .arr [.num 1, .num 2])]).2.2
    exact rfl

/-- C9: input-data resolution is by truthiness, not key presence — for
every spec with a truthy prompt whose `input_data` key is *bound* to a
falsy value (empty object/array, null, empty string, ...), a successful
`normalize_spec` ignores that binding and resolves input data from
`emails`, else `data`, else the empty object (then array-wraps). -/
theorem C9_falsy_input_data_overridden (spec : List (String × Value)) (v : Value)
    (r : NormalizedSpec)
    (hp : (pyOr (dictGet spec "prompt_template") (dictGet spec "prompt")).truthy = true)
    (hb : spec.lookup "input_data" = some v)
    (hf : v.truthy = false)
    (hok : normalize_spec spec = .ok r) :
    r.input_data = wrapInput (pyOr (dictGet spec "emails")
        (pyOr (dictGet spec "data") (.obj []))) := by
  have h := (normalize_spec_ok_fields spec r hok).2
  rw [h]
  have hg : dictGet spec "input_data" = v := by
    unfold dictGet
    rw [hb]
  rw [hg]
  unfold pyOr
  rw [if_neg (by simp [hf])]

/-- Witness for C9: an explicitly bound empty `input_data` object is
overridden by the `emails` fallback key. -/
theorem C9_falsy_input_data_overridden_witness :
    (normalize_spec [("prompt", .str "P"), ("input_data", .obj []),
        ("emails", .arr [.num 1])]).isOk = true
    ∧ ∀ r, normalize_spec [("prompt", .str "P"), ("input_data", .obj []),
        ("emails", .arr [.num 1])] = .ok r →
          r.input_data = .obj [("items", .arr [.num 1])] := by
  refine ⟨rfl, ?_⟩
  intro r hr
  have := C9_falsy_input_data_overridden
    [("prompt", .str "P"), ("input_data", .obj []), ("emails", .arr [.num 1])]
    (.obj []) r rfl rfl rfl hr
  simpa using this

/- ------------------------------------------------------------------
Claim C8: the streaming-frame parser
------------------------------------------------------------------ -/

theorem charsStartWith_cons {p : Char} {ps l : List Char}
    (h : charsStartWith (p :: ps) l = true) :
    ∃ t, l = p :: t ∧ charsStartWith ps t = true := by
  cases l with
  | nil => simp [charsStartWith] at h
  | cons c cs =>
    simp only [charsStartWith, Bool.and_eq_true, beq_iff_eq] at h
    exact ⟨cs, by rw [h.1], h.2⟩

/-- A line whose stripped form starts with `data:` is neither blank nor
a comment line. -/
theorem data_line_facts {s : String} (h : pyStartsWith s "data:" = true) :
    s.data.isEmpty = false ∧ pyStartsWith s ":" = false := by
  have h' : charsStartWith ('d' :: "ata:".data) s.data = true := h
  obtain ⟨t, ht, -⟩ := charsStartWith_cons h'
  constructor
  · rw [ht]; rfl
  · show charsStartWith ":".data s.data = false
    rw [ht]; rfl

/-- `json.loads` restricted to the inputs used in the C8 concrete
instances, per the documented stdlib behavior: the text `42` parses to
the JSON number 42 (valid JSON that is not an object). -/
def jsonLoads42 : String → Option Value :=
  fun s => if s = "42" then some (.num 42) else none

/-- Counterexample to C8 as stated: the line `data: 42` carries a
syntactically valid JSON payload (so it is not one of the claim's
malformed frames), yet the parser neither drops it nor yields a chunk —
`payload.get("choices")` raises `AttributeError` on the non-dict
payload, which escapes the parser. -/
theorem C8_counterexample :
    parse_openrouter_sse_line jsonLoads42 "data: 42"
        = .error "AttributeError: object has no attribute get"
    ∧ jsonLoads42 "42" = some (.num 42) := ⟨rfl, rfl⟩

/-- C8 amended: blank lines, comment lines beginning with `:`, lines not
beginning with `data:`, and data lines with non-JSON payloads are all
silently dropped (`.ok none`, never an error); `data: [DONE]` yields the
terminal done marker; and a data line whose payload is a JSON object of
the expected shape (choices falsy or a list headed by an object, whose
delta/message resolve to objects) yields a chunk carrying content_delta,
reasoning_details, usage, and the raw payload.  (A payload that is valid
JSON but not an object escapes as an error — see the counterexample.) -/
theorem C8_sse_parser_amended (jsonLoads : String → Option Value) (line : String) :
    ((pyStrip line).data.isEmpty = true →
      parse_openrouter_sse_line jsonLoads line = .ok none)
    ∧ (pyStartsWith (pyStrip line) ":" = true →
      parse_openrouter_sse_line jsonLoads line = .ok none)
    ∧ (pyStartsWith (pyStrip line) "data:" = false →
      parse_openrouter_sse_line jsonLoads line = .ok none)
    ∧ (pyStartsWith (pyStrip line) "data:" = true →
       payloadTextOf line ≠ "[DONE]" →
       jsonLoads (payloadTextOf line) = none →
      parse_openrouter_sse_line jsonLoads line = .ok none)
    ∧ (pyStartsWith (pyStrip line) "data:" = true →
       payloadTextOf line = "[DONE]" →
      parse_openrouter_sse_line jsonLoads line = .ok (some .doneMarker))
    ∧ (∀ kvs ckvs rest dkvs mkvs,
       pyStartsWith (pyStrip line) "data:" = true →
       payloadTextOf line ≠ "[DONE]" →
       jsonLoads (payloadTextOf line) = some (.obj kvs) →
       pyOr (dictGet kvs "choices") (.arr [.obj []]) = .arr (.obj ckvs :: rest) →
       pyOr (dictGet ckvs "delta") (.obj []) = .obj dkvs →
       pyOr (dictGet ckvs "message") (.obj []) = .obj mkvs →
      parse_openrouter_sse_line jsonLoads line
        = .ok (some (.chunk (dictGet dkvs "content")
            (pyOr (dictGet dkvs "reasoning_details")
              (pyOr (dictGet mkvs "reasoning_details") (.arr [])))
            (dictGet kvs "usage") (.obj kvs)))) := by
  refine ⟨?_, ?_, ?_, ?_, ?_, ?_⟩
  · intro h
    unfold parse_openrouter_sse_line
    rw [if_pos (by simp [h])]
  · intro h
    unfold parse_openrouter_sse_line
    rw [if_pos (by simp [h])]
  · intro h
    unfold parse_openrouter_sse_line
    by_cases h₁ : ((pyStrip line).data.isEmpty || pyStartsWith (pyStrip line) ":") = true
    · rw [if_pos h₁]
    · rw [if_neg h₁, if_pos (by simp [h])]
  · intro hd hne hj
    obtain ⟨hnb, hnc⟩ := data_line_facts hd
    unfold parse_openrouter_sse_line
    rw [if_neg (by simp [hnb, hnc]), if_neg (by simp [hd]), if_neg hne, hj]
  · intro hd hdone
    obtain ⟨hnb, hnc⟩ := data_line_facts hd
    unfold parse_openrouter_sse_line
    rw [if_neg (by simp [hnb, hnc]), if_neg (by simp [hd]), if_pos hdone]
  · intro kvs ckvs rest dkvs mkvs hd hne hj hch hdelta hmsg
    obtain ⟨hnb, hnc⟩ := data_line_facts hd
    unfold parse_openrouter_sse_line
    rw [if_neg (by simp [hnb, hnc]), if_neg (by simp [hd]), if_neg hne, hj]
    dsimp only [pyGetOnValue]
    rw [hch]
    dsimp only [pyIndexZero, pyGetOnValue]
    rw [hdelta, hmsg]

/-- The SSE data payload text used in the C8 witness (a one-chunk
OpenRouter frame with a content delta). -/
def helloPayloadText : String :=
  "\x7b\"choices\":[\x7b\"delta\":\x7b\"content\":\"hello\"\x7d\x7d]\x7d"

/-- The JSON value `json.loads` yields for `helloPayloadText`. -/
def helloPayload : Value :=
  .obj [("choices", .arr [.obj [("delta", .obj [("content", .str "hello")])]])]

/-- `json.loads` restricted to the inputs of the C8 witness, per the
documented stdlib behavior (everything else a decode error). -/
def jsonLoadsHello : String → Option Value :=
  fun s => if s = helloPayloadText then some helloPayload else none

/-- Witness for C8 amended: every branch at concrete lines. -/
theorem C8_sse_parser_amended_witness :
    parse_openrouter_sse_line jsonLoadsHello "" = .ok none
    ∧ parse_openrouter_sse_line jsonLoadsHello ": ping" = .ok none
    ∧ parse_openrouter_sse_line jsonLoadsHello "event: message" = .ok none
    ∧ parse_openrouter_sse_line jsonLoadsHello "data: notjson" = .ok none
    ∧ parse_openrouter_sse_line jsonLoadsHello "data: [DONE]" = .ok (some .doneMarker)
    ∧ parse_openrouter_sse_line jsonLoadsHello ("data: " ++ helloPayloadText)
        = .ok (some (.chunk (.str "hello") (.arr []) .null helloPayload)) := by
  refine ⟨?_, ?_, ?_, ?_, ?_, ?_⟩
  · exact (C8_sse_parser_amended jsonLoadsHello "").1 rfl
  · exact (C8_sse_parser_amended jsonLoadsHello ": ping").2.1 rfl
  · exact (C8_sse_parser_amended jsonLoadsHello "event: message").2.2.1 rfl
  · exact (C8_sse_parser_amended jsonLoadsHello "data: notjson").2.2.2.1 rfl
      (by decide) rfl
  · exact (C8_sse_parser_amended jsonLoadsHello "data: [DONE]").2.2.2.2.1 rfl rfl
  · exact (C8_sse_parser_amended jsonLoadsHello ("data: " ++ helloPayloadText)).2.2.2.2.2
      [("choices", .arr [.obj [("delta", .obj [("content", .str "hello")])]])]
      [("delta", .obj [("content", .str "hello")])] [] [("content", .str "hello")] []
      rfl (by decide) rfl rfl rfl rfl

/- ------------------------------------------------------------------
Claim C7: latency measurement
------------------------------------------------------------------ -/

/-- A sample model for concrete instantiation. -/
def modelA : ModelSpec :=
  { id := "alpha/m1", name := "M1", provider := "Alpha", color := "#10b981" }

/-- A second sample model for concrete instantiation. -/
def modelB : ModelSpec :=
  { id := "beta/m2", name := "M2", provider := "Beta", color := "#f97316" }

/-- C7 amended: the recorded latency is measured from the monotonic-clock
read taken *before* the limiter slot is acquired, so it equals limiter
wait plus stream time — queue wait is included, for every task. -/
theorem C7_latency_includes_queue_wait (wp : String) (run : Run)
    (m : ModelSpec) (rep : Nat) (s : TaskStream) :
    (run_single_model wp run m rep s).1.latency_ms = s.semWaitMs + s.streamMs := by
  unfold run_single_model
  dsimp only
  repeat' split
  all_goals (dsimp only; omega)

/-- Counterexample to C7 as stated: with 5 ms of limiter wait and 3 ms of
stream time, the recorded latency is 8 ms, not at most the 3 ms of
per-task stream time — so the measured interval does not start at slot
acquisition and queue wait is not excluded. -/
theorem C7_counterexample :
    (run_single_model "p" (createRunRecord 1 1) modelA 0
        { items := [], exn := none, semWaitMs := 5, streamMs := 3 }).1.latency_ms = 8
    ∧ ¬ (8 ≤ 3) := ⟨rfl, by decide⟩

/- ------------------------------------------------------------------
Proof layer: fan-out characterization (for C3, C4)
------------------------------------------------------------------ -/

/-- The (event_type, model_id, rep_index) tag of an event. -/
def etag (e : Event) : String × Option String × Option Nat :=
  (e.event_type, e.model_id, e.rep_index)

/-- How many narration_delta events the stream loop emits for the given
chunks (one per truthy string content delta, stopping at the first
truthy non-string delta, which raises inside the loop). -/
def narrCount : List SSEParsed → Nat
  | [] => 0
  | .doneMarker :: rest => narrCount rest
  | .chunk cd _ _ _ :: rest =>
    if cd.truthy then
      match cd with
      | .str _ => narrCount rest + 1
      | _ => 0
    else narrCount rest

/-- The exception the loop body itself raises, if any (a truthy
non-string content delta makes `accumulated_text += content_delta`
raise `TypeError` inside the `try`). -/
def loopExnOf : List SSEParsed → Option String
  | [] => none
  | .doneMarker :: rest => loopExnOf rest
  | .chunk cd _ _ _ :: rest =>
    if cd.truthy then
      match cd with
      | .str _ => loopExnOf rest
      | _ => some "TypeError: can only concatenate str to str"
    else loopExnOf rest

/-- The exception caught by the task's `except` clause, if any: an
in-loop raise, else the stream's own exception. -/
def taskExnOf (s : TaskStream) : Option String :=
  match loopExnOf s.items with
  | some e => some e
  | none => s.exn

/-- The event type of the task's terminal event. -/
def terminalTypeOf (s : TaskStream) : String :=
  if (taskExnOf s).isSome then "model_run_error" else "model_run_completed"

/-- The status recorded in the task's result. -/
def statusOf (s : TaskStream) : String :=
  if (taskExnOf s).isSome then "error" else "completed"

/-- The event tags one task emits, in order: started, one narration per
delivered content delta, then exactly one terminal event. -/
def taskTags (m : ModelSpec) (rep : Nat) (s : TaskStream) :
    List (String × Option String × Option Nat) :=
  ("model_run_started", some m.id, some rep)
    :: List.replicate (narrCount s.items) ("narration_delta", some m.id, some rep)
    ++ [(terminalTypeOf s, some m.id, some rep)]

theorem streamLoop_events_etag (wp tid cp : String) (m : ModelSpec) (rep : Nat) :
    ∀ (items : List SSEParsed) (t : String) (c : Nat) (u : Value) (run : Run),
    ((streamLoop wp tid cp m rep items (t, c, u, run)).1.2.2.2).events.map etag
      = run.events.map etag
        ++ List.replicate (narrCount items) ("narration_delta", some m.id, some rep)
  | [], t, c, u, run => by simp [streamLoop, narrCount]
  | .doneMarker :: rest, t, c, u, run => by
    simp only [streamLoop, narrCount]
    exact streamLoop_events_etag wp tid cp m rep rest t c u run
  | .chunk cd rd us raw :: rest, t, c, u, run => by
    by_cases ht : cd.truthy = true
    · cases cd with
      | str s =>
        simp only [streamLoop, narrCount]
        rw [if_pos ht, if_pos ht]
        rw [streamLoop_events_etag wp tid cp m rep rest]
        rw [add_run_event_snd_events]
        simp only [List.map_append, List.replicate_succ]
        have : etag (run.add_run_event
            { agent_id := "multi-model-runner", event_type := "narration_delta",
              phase := "execution", content := s, model := m.id,
              weave := [("project", wp), ("trace_id", tid),
                ("call_id", cp ++ "-chunk-" ++ toString (c + 1)), ("parent_call_id", "")],
              model_id := some m.id, rep_index := some rep,
              extra := [("chunk_index", Value.num (c + 1)), ("content_delta", Value.str s)] }).1
          = ("narration_delta", some m.id, some rep) := rfl
        simp [this]
      | null => exact absurd ht (by simp [Value.truthy])
      | bool b =>
        simp only [streamLoop, narrCount]
        rw [if_pos ht, if_pos ht]
        simp
      | num n =>
        simp only [streamLoop, narrCount]
        rw [if_pos ht, if_pos ht]
        simp
      | arr xs =>
        simp only [streamLoop, narrCount]
        rw [if_pos ht, if_pos ht]
        simp
      | obj kvs =>
        simp only [streamLoop, narrCount]
        rw [if_pos ht, if_pos ht]
        simp
    · simp only [streamLoop, narrCount]
      rw [if_neg (show ¬ (cd.truthy = true) from ht),
        if_neg (show ¬ (cd.truthy = true) from ht)]
      rw [streamLoop_events_etag wp tid cp m rep rest]

theorem streamLoop_exn (wp tid cp : String) (m : ModelSpec) (rep : Nat) :
    ∀ (items : List SSEParsed) (t : String) (c : Nat) (u : Value) (run : Run),
    (streamLoop wp tid cp m rep items (t, c, u, run)).2 = loopExnOf items
  | [], t, c, u, run => rfl
  | .doneMarker :: rest, t, c, u, run => by
    simp only [streamLoop, loopExnOf]
    exact streamLoop_exn wp tid cp m rep rest t c u run
  | .chunk cd rd us raw :: rest, t, c, u, run => by
    by_cases ht : cd.truthy = true
    · cases cd with
      | str s =>
        simp only [streamLoop, loopExnOf]
        rw [if_pos ht, if_pos ht]
        rw [streamLoop_exn wp tid cp m rep rest]
      | null => exact absurd ht (by simp [Value.truthy])
      | bool b =>
        simp only [streamLoop, loopExnOf]
        rw [if_pos ht, if_pos ht]
      | num n =>
        simp only [streamLoop, loopExnOf]
        rw [if_pos ht, if_pos ht]
      | arr xs =>
        simp only [streamLoop, loopExnOf]
        rw [if_pos ht, if_pos ht]
      | obj kvs =>
        simp only [streamLoop, loopExnOf]
        rw [if_pos ht, if_pos ht]
    · simp only [streamLoop, loopExnOf]
      rw [if_neg (show ¬ (cd.truthy = true) from ht),
        if_neg (show ¬ (cd.truthy = true) from ht)]
      rw [streamLoop_exn wp tid cp m rep rest]

theorem streamLoop_results (wp tid cp : String) (m : ModelSpec) (rep : Nat) :
    ∀ (items : List SSEParsed) (t : String) (c : Nat) (u : Value) (run : Run),
    ((streamLoop wp tid cp m rep items (t, c, u, run)).1.2.2.2).results = run.results
  | [], t, c, u, run => rfl
  | .doneMarker :: rest, t, c, u, run => by
    simp only [streamLoop]
    exact streamLoop_results wp tid cp m rep rest t c u run
  | .chunk cd rd us raw :: rest, t, c, u, run => by
    by_cases ht : cd.truthy = true
    · cases cd with
      | str s =>
        simp only [streamLoop]
        rw [if_pos ht]
        rw [streamLoop_results wp tid cp m rep rest]
        rfl
      | null => exact absurd ht (by simp [Value.truthy])
      | bool b => simp only [streamLoop]; rw [if_pos ht]
      | num n => simp only [streamLoop]; rw [if_pos ht]
      | arr xs => simp only [streamLoop]; rw [if_pos ht]
      | obj kvs => simp only [streamLoop]; rw [if_pos ht]
    · simp only [streamLoop]
      rw [if_neg (show ¬ (cd.truthy = true) from ht)]
      rw [streamLoop_results wp tid cp m rep rest]

theorem run_single_model_fst (wp : String) (run : Run) (m : ModelSpec)
    (rep : Nat) (s : TaskStream) :
    (run_single_model wp run m rep s).1.status = statusOf s
    ∧ (run_single_model wp run m rep s).1.model_id = m.id
    ∧ (run_single_model wp run m rep s).1.rep_index = rep := by
  unfold run_single_model
  dsimp only
  rw [streamLoop_exn]
  cases hl : loopExnOf s.items with
  | some e =>
    exact ⟨by simp [statusOf, taskExnOf, hl], rfl, rfl⟩
  | none =>
    cases hx : s.exn with
    | some e => exact ⟨by simp [statusOf, taskExnOf, hl, hx], rfl, rfl⟩
    | none => exact ⟨by simp [statusOf, taskExnOf, hl, hx], rfl, rfl⟩

theorem run_single_model_snd_results (wp : String) (run : Run) (m : ModelSpec)
    (rep : Nat) (s : TaskStream) :
    (run_single_model wp run m rep s).2.results
      = (resultKey m.id rep, (run_single_model wp run m rep s).1) :: run.results := by
  unfold run_single_model
  dsimp only
  rw [streamLoop_exn]
  cases hl : loopExnOf s.items with
  | some e =>
    dsimp only [Run.set_model_result]
    simp only [add_run_event_snd_results, streamLoop_results]
    rfl
  | none =>
    cases hx : s.exn with
    | some e =>
      dsimp only [Run.set_model_result]
      simp only [add_run_event_snd_results, streamLoop_results]
      rfl
    | none =>
      dsimp only [Run.set_model_result]
      simp only [add_run_event_snd_results, streamLoop_results]
      rfl

theorem etag_add_run_event (run : Run) (a : EventArgs) :
    etag (run.add_run_event a).1 = (a.event_type, a.model_id, a.rep_index) := rfl

theorem run_single_model_snd_events_etag (wp : String) (run : Run) (m : ModelSpec)
    (rep : Nat) (s : TaskStream) :
    (run_single_model wp run m rep s).2.events.map etag
      = run.events.map etag ++ taskTags m rep s := by
  unfold run_single_model
  dsimp only
  rw [streamLoop_exn]
  cases hl : loopExnOf s.items with
  | some e =>
    dsimp only [Run.set_model_result]
    simp only [add_run_event_snd_events, List.map_append, streamLoop_events_etag,
      etag_add_run_event]
    simp [taskTags, terminalTypeOf, taskExnOf, hl, List.append_assoc]
    exact ⟨rfl, rfl⟩
  | none =>
    cases hx : s.exn with
    | some e =>
      dsimp only [Run.set_model_result]
      simp only [add_run_event_snd_events, List.map_append, streamLoop_events_etag,
        etag_add_run_event]
      simp [taskTags, terminalTypeOf, taskExnOf, hl, hx, List.append_assoc]
      exact ⟨rfl, rfl⟩
    | none =>
      dsimp only [Run.set_model_result]
      simp only [add_run_event_snd_events, List.map_append, streamLoop_events_etag,
        etag_add_run_event]
      simp [taskTags, terminalTypeOf, taskExnOf, hl, hx, List.append_assoc]
      exact ⟨rfl, rfl⟩

theorem set_run_complete_events (run : Run) :
    run.set_run_complete.events = run.events := rfl

theorem set_run_complete_results (run : Run) :
    run.set_run_complete.results = run.results := rfl

theorem swarmLoop_events_etag (wp : String) (streams : String → Nat → TaskStream) :
    ∀ (tasks : List (ModelSpec × Nat)) (run : Run),
    (swarmLoop wp streams tasks run).2.events.map etag
      = run.events.map etag
        ++ (tasks.map (fun tk => taskTags tk.1 tk.2 (streams tk.1.id tk.2))).flatten
  | [], run => by simp [swarmLoop]
  | (m, rep) :: rest, run => by
    simp only [swarmLoop]
    rw [swarmLoop_events_etag wp streams rest]
    rw [run_single_model_snd_events_etag]
    simp [List.append_assoc]

/-- The (key, status) projection of a result-map entry. -/
def prKey (p : String × SwarmResult) : String × String := (p.1, p.2.status)

theorem swarmLoop_results_proj (wp : String) (streams : String → Nat → TaskStream) :
    ∀ (tasks : List (ModelSpec × Nat)) (run : Run),
    (swarmLoop wp streams tasks run).2.results.map prKey
      = (tasks.map (fun tk =>
          (resultKey tk.1.id tk.2, statusOf (streams tk.1.id tk.2)))).reverse
        ++ run.results.map prKey
  | [], run => by simp [swarmLoop]
  | (m, rep) :: rest, run => by
    simp only [swarmLoop]
    rw [swarmLoop_results_proj wp streams rest]
    rw [run_single_model_snd_results]
    simp [prKey, (run_single_model_fst wp run m rep (streams m.id rep)).1]

theorem swarmLoop_fst_proj (wp : String) (streams : String → Nat → TaskStream) :
    ∀ (tasks : List (ModelSpec × Nat)) (run : Run),
    (swarmLoop wp streams tasks run).1.map (fun r => (r.model_id, r.rep_index, r.status))
      = tasks.map (fun tk => (tk.1.id, tk.2, statusOf (streams tk.1.id tk.2)))
  | [], run => rfl
  | (m, rep) :: rest, run => by
    simp only [swarmLoop, List.map_cons]
    rw [swarmLoop_fst_proj wp streams rest]
    have h := run_single_model_fst wp run m rep (streams m.id rep)
    rw [h.1, h.2.1, h.2.2]

theorem run_swarm_snd_events_etag (wp : String) (run : Run) (models : List ModelSpec)
    (reps : Nat) (streams : String → Nat → TaskStream) :
    (run_swarm wp run models reps streams).2.events.map etag
      = run.events.map etag
        ++ ("run_started", (none : Option String), (none : Option Nat))
          :: ((taskPairs models reps).map
              (fun tk => taskTags tk.1 tk.2 (streams tk.1.id tk.2))).flatten
        ++ [("run_completed", none, none)] := by
  unfold run_swarm
  dsimp only
  rw [set_run_complete_events, add_run_event_snd_events, List.map_append,
    swarmLoop_events_etag, add_run_event_snd_events, List.map_append]
  simp [List.append_assoc, etag_add_run_event]

theorem run_swarm_snd_status (wp : String) (run : Run) (models : List ModelSpec)
    (reps : Nat) (streams : String → Nat → TaskStream) :
    (run_swarm wp run models reps streams).2.status = "completed" := rfl

theorem run_swarm_snd_results_proj (wp : String) (run : Run) (models : List ModelSpec)
    (reps : Nat) (streams : String → Nat → TaskStream) :
    (run_swarm wp run models reps streams).2.results.map prKey
      = ((taskPairs models reps).map (fun tk =>
          (resultKey tk.1.id tk.2, statusOf (streams tk.1.id tk.2)))).reverse
        ++ run.results.map prKey := by
  unfold run_swarm
  dsimp only
  rw [set_run_complete_results, add_run_event_snd_results, swarmLoop_results_proj,
    add_run_event_snd_results]

theorem run_swarm_fst_proj (wp : String) (run : Run) (models : List ModelSpec)
    (reps : Nat) (streams : String → Nat → TaskStream) :
    (run_swarm wp run models reps streams).1.map (fun r => (r.model_id, r.rep_index, r.status))
      = (taskPairs models reps).map (fun tk => (tk.1.id, tk.2, statusOf (streams tk.1.id tk.2))) := by
  unfold run_swarm
  dsimp only
  rw [swarmLoop_fst_proj]

theorem lookup_map_prKey : ∀ (l : List (String × SwarmResult)) (k : String),
    (l.map prKey).lookup k = (l.lookup k).map (·.status)
  | [], k => rfl
  | (k', v) :: rest, k => by
    simp only [List.map_cons, prKey, List.lookup]
    cases h : k == k'
    · exact lookup_map_prKey rest k
    · rfl

theorem lookup_eq_of_mem_of_nodupkeys {α : Type} :
    ∀ (l : List (String × α)) (k : String) (v : α),
    (l.map Prod.fst).Nodup → (k, v) ∈ l → l.lookup k = some v
  | [], k, v => by simp
  | (k', v') :: rest, k, v => by
    intro hnd hm
    rcases List.mem_cons.mp hm with h | h
    · obtain ⟨rfl, rfl⟩ := Prod.mk.injEq .. ▸ h
      cases h
      simp [List.lookup]
    · have hk : ¬ (k = k') := by
        intro he
        subst he
        exact (List.nodup_cons.mp (by simpa using hnd)).1
          (List.mem_map_of_mem Prod.fst h)
      simp only [List.lookup, beq_eq_false_iff_ne.mpr (fun he => hk he)]
      exact lookup_eq_of_mem_of_nodupkeys rest k v
        (List.nodup_cons.mp (by simpa using hnd)).2 h

theorem mem_taskPairs {models : List ModelSpec} {reps : Nat} {m : ModelSpec} {r : Nat}
    (hm : m ∈ models) (hr : r < reps) : (m, r) ∈ taskPairs models reps := by
  unfold taskPairs
  refine List.mem_flatMap.mpr ⟨r, List.mem_range.mpr hr, ?_⟩
  exact List.mem_map_of_mem (fun m => (m, r)) hm

theorem taskExnOf_isSome_of_exn {s : TaskStream} {e : String} (h : s.exn = some e) :
    (taskExnOf s).isSome = true := by
  unfold taskExnOf
  cases hl : loopExnOf s.items <;> simp [h]

theorem statusOf_of_exn {s : TaskStream} {e : String} (h : s.exn = some e) :
    statusOf s = "error" := by
  unfold statusOf
  rw [taskExnOf_isSome_of_exn h]
  rfl

theorem terminalTypeOf_of_exn {s : TaskStream} {e : String} (h : s.exn = some e) :
    terminalTypeOf s = "model_run_error" := by
  unfold terminalTypeOf
  rw [taskExnOf_isSome_of_exn h]
  rfl

theorem statusOf_of_clean {s : TaskStream} (h1 : s.exn = none)
    (h2 : loopExnOf s.items = none) : statusOf s = "completed" := by
  unfold statusOf taskExnOf
  rw [h2]
  simp [h1]

/-- The per-task result-map entries of a fan-out over the given tasks. -/
def taskEntries (streams : String → Nat → TaskStream)
    (tasks : List (ModelSpec × Nat)) : List (String × String) :=
  tasks.map (fun tk => (resultKey tk.1.id tk.2, statusOf (streams tk.1.id tk.2)))

/-- C3: if task (m0, r0)'s stream raises after its chunks, then — for the
run produced by `run_swarm` on a fresh run record — a `model_run_error`
event tagged with that task is emitted; that task's recorded Result has
status error; the fan-out still returns one Result per task (the
exception is consumed inside the task, so `run_swarm` returns normally,
with no exception placeholder); every other task whose stream completes
cleanly has its Result recorded with status completed; and the run still
reaches completed status. -/
theorem C3_error_isolation (rid sid : Nat) (wp : String) (models : List ModelSpec)
    (reps : Nat) (streams : String → Nat → TaskStream) (m0 : ModelSpec) (r0 : Nat)
    (hm : m0 ∈ models) (hr : r0 < reps)
    (hkeys : ((taskPairs models reps).map (fun tk => resultKey tk.1.id tk.2)).Nodup)
    (e0 : String) (hfail : (streams m0.id r0).exn = some e0)
    (out : List SwarmResult) (final : Run)
    (hout : out = (run_swarm wp (createRunRecord rid sid) models reps streams).1)
    (hfinal : final = (run_swarm wp (createRunRecord rid sid) models reps streams).2) :
    (("model_run_error", some m0.id, some r0) ∈ final.events.map etag)
    ∧ ((final.results.lookup (resultKey m0.id r0)).map (·.status) = some "error")
    ∧ (out.map (fun r => (r.model_id, r.rep_index, r.status))
        = (taskPairs models reps).map (fun tk => (tk.1.id, tk.2, statusOf (streams tk.1.id tk.2))))
    ∧ (∀ m ∈ models, ∀ r < reps, (streams m.id r).exn = none →
        loopExnOf (streams m.id r).items = none →
        (final.results.lookup (resultKey m.id r)).map (·.status) = some "completed")
    ∧ final.status = "completed" := by
  have hentries : final.results.map prKey
      = (taskEntries streams (taskPairs models reps)).reverse := by
    rw [hfinal, run_swarm_snd_results_proj]
    simp [taskEntries, createRunRecord]
  have hkeysrev : ((taskEntries streams (taskPairs models reps)).reverse.map Prod.fst).Nodup := by
    rw [List.map_reverse]
    refine List.nodup_reverse.mpr ?_
    simpa [taskEntries, List.map_map, Function.comp] using hkeys
  have hlookup : ∀ m ∈ models, ∀ r < reps,
      (final.results.lookup (resultKey m.id r)).map (·.status)
        = some (statusOf (streams m.id r)) := by
    intro m hmm r hrr
    rw [← lookup_map_prKey, hentries]
    apply lookup_eq_of_mem_of_nodupkeys _ _ _ hkeysrev
    rw [List.mem_reverse]
    exact List.mem_map_of_mem _ (mem_taskPairs hmm hrr)
  refine ⟨?_, ?_, ?_, ?_, ?_⟩
  · rw [hfinal, run_swarm_snd_events_etag]
    simp only [createRunRecord, List.map_nil, List.nil_append]
    refine List.mem_cons_of_mem _ (List.mem_append.mpr (Or.inl ?_))
    refine List.mem_flatten.mpr ⟨taskTags m0 r0 (streams m0.id r0), ?_, ?_⟩
    · exact List.mem_map_of_mem _ (mem_taskPairs hm hr)
    · unfold taskTags
      rw [terminalTypeOf_of_exn hfail]
      simp
  · rw [hlookup m0 hm r0 hr, statusOf_of_exn hfail]
  · rw [hout, run_swarm_fst_proj]
  · intro m hmm r hrr h1 h2
    rw [hlookup m hmm r hrr, statusOf_of_clean h1 h2]
  · rw [hfinal]
    exact run_swarm_snd_status wp _ models reps streams

/-- A parsed content chunk used in concrete instances. -/
def cChunk (s : String) : SSEParsed := .chunk (.str s) (.arr []) .null (.obj [])

/-- A stream that completes cleanly after two content chunks. -/
def okStreamW : TaskStream :=
  { items := [cChunk "hi", cChunk " there", .doneMarker], exn := none,
    semWaitMs := 0, streamMs := 7 }

/-- A stream that raises after emitting two content chunks. -/
def badStreamW : TaskStream :=
  { items := [cChunk "x", cChunk "y"], exn := some "boom",
    semWaitMs := 5, streamMs := 3 }

/-- The collaborator oracle for the C3 witness: modelA's stream raises,
modelB's completes. -/
def streamsW : String → Nat → TaskStream :=
  fun mid _ => if mid = "alpha/m1" then badStreamW else okStreamW

/-- Witness for C3 at a concrete 2-model × 1-rep fan-out where modelA's
stream raises after two chunks. -/
theorem C3_error_isolation_witness :
    ((run_swarm "p" (createRunRecord 1 2) [modelA, modelB] 1 streamsW).2.results.lookup
        (resultKey "alpha/m1" 0)).map (·.status) = some "error"
    ∧ (run_swarm "p" (createRunRecord 1 2) [modelA, modelB] 1 streamsW).2.status = "completed"
    ∧ ((run_swarm "p" (createRunRecord 1 2) [modelA, modelB] 1 streamsW).2.results.lookup
        (resultKey "beta/m2" 0)).map (·.status) = some "completed" := by
  have h := C3_error_isolation 1 2 "p" [modelA, modelB] 1 streamsW modelA 0
    (by decide) (by decide) (by decide) "boom" rfl
    (run_swarm "p" (createRunRecord 1 2) [modelA, modelB] 1 streamsW).1
    (run_swarm "p" (createRunRecord 1 2) [modelA, modelB] 1 streamsW).2 rfl rfl
  exact ⟨h.2.1, h.2.2.2.2, h.2.2.2.1 modelB (by decide) 0 (by decide) rfl rfl⟩

/- ------------------------------------------------------------------
Claim C4: counting lemmas
------------------------------------------------------------------ -/

theorem countP_congr' {α : Type} : ∀ (l : List α) (p q : α → Bool),
    (∀ a ∈ l, p a = q a) → l.countP p = l.countP q
  | [], p, q, _ => rfl
  | a :: l, p, q, h => by
    rw [List.countP_cons, List.countP_cons,
      countP_congr' l p q (fun x hx => h x (List.mem_cons_of_mem a hx)),
      h a (List.mem_cons_self a l)]

theorem countP_decide_eq_one {α : Type} [DecidableEq α] :
    ∀ {l : List α} {a : α}, l.Nodup → a ∈ l →
      l.countP (fun x => decide (x = a)) = 1 := by
  intro l
  induction l with
  | nil => intro a _ hm; simp at hm
  | cons b t ih =>
    intro a hnd hm
    rw [List.countP_cons]
    rcases List.mem_cons.mp hm with h | hmem
    · subst h
      have hnotin : a ∉ t := (List.nodup_cons.mp hnd).1
      have hz : t.countP (fun x => decide (x = a)) = 0 :=
        List.countP_eq_zero.mpr (fun x hx => by
          simp only [decide_eq_true_eq]
          intro he
          exact hnotin (he ▸ hx))
      simp [hz]
    · have h1 := ih (List.nodup_cons.mp hnd).2 hmem
      have hba : ¬ (b = a) := fun he => (List.nodup_cons.mp hnd).1 (he ▸ hmem)
      simp [h1, hba]

theorem sum_map_ite_one {α : Type} [DecidableEq α] :
    ∀ (l : List α) (a : α),
    (l.map (fun x => if x = a then 1 else 0)).sum = l.countP (fun x => decide (x = a))
  | [], a => rfl
  | b :: t, a => by
    simp only [List.map_cons, List.sum_cons, List.countP_cons,
      sum_map_ite_one t a, decide_eq_true_eq]
    by_cases h : b = a <;> simp [h] <;> omega

theorem countP_taskPairs_tag (models : List ModelSpec) (reps : Nat)
    (m0 : ModelSpec) (r0 : Nat) (hnd : (models.map (·.id)).Nodup)
    (hm : m0 ∈ models) (hr : r0 < reps) :
    (taskPairs models reps).countP (fun tk => decide (tk.1.id = m0.id ∧ tk.2 = r0)) = 1 := by
  unfold taskPairs
  rw [show (List.range reps).flatMap (fun rep => models.map (fun m => (m, rep)))
      = ((List.range reps).map (fun rep => models.map (fun m => (m, rep)))).flatten from rfl]
  rw [List.countP_flatten, List.map_map]
  have hper : ∀ rep ∈ List.range reps,
      ((List.countP fun tk => decide (tk.1.id = m0.id ∧ tk.2 = r0))
          ∘ fun rep => models.map (fun m => (m, rep))) rep
        = if rep = r0 then 1 else 0 := by
    intro rep _
    simp only [Function.comp]
    rw [List.countP_map]
    by_cases h : rep = r0
    · subst h
      rw [countP_congr' models _ (fun m => decide (m.id = m0.id))
        (fun m _ => by simp)]
      have h1 := countP_decide_eq_one (l := models.map (·.id)) (a := m0.id)
        hnd (List.mem_map_of_mem (·.id) hm)
      rw [List.countP_map] at h1
      simp only [if_pos rfl]
      simpa [Function.comp] using h1
    · rw [if_neg h]
      exact List.countP_eq_zero.mpr (fun tk _ => by simp [h])
  rw [List.map_congr_left hper, sum_map_ite_one]
  exact countP_decide_eq_one (List.nodup_range reps) (List.mem_range.mpr hr)

theorem sum_map_ite_pred {α : Type} (P : α → Prop) [DecidablePred P] :
    ∀ (l : List α),
    (l.map (fun x => if P x then 1 else 0)).sum = l.countP (fun x => decide (P x))
  | [] => rfl
  | b :: t => by
    simp only [List.map_cons, List.sum_cons, List.countP_cons,
      sum_map_ite_pred P t, decide_eq_true_eq]
    by_cases h : P b <;> simp [h] <;> omega

theorem taskTags_countP (m : ModelSpec) (rep : Nat) (s : TaskStream)
    (p : String × Option String × Option Nat → Bool) :
    (taskTags m rep s).countP p
      = (if p ("model_run_started", some m.id, some rep) then 1 else 0)
        + (if p ("narration_delta", some m.id, some rep) then narrCount s.items else 0)
        + (if p (terminalTypeOf s, some m.id, some rep) then 1 else 0) := by
  unfold taskTags
  rw [List.countP_append, List.countP_cons, List.countP_replicate]
  simp only [List.countP_cons, List.countP_nil]
  split_ifs <;> omega

theorem terminalTypeOf_ne_started (s : TaskStream) :
    ¬ (terminalTypeOf s = "model_run_started") := by
  unfold terminalTypeOf
  split <;> decide

theorem terminalTypeOf_ne_run_started (s : TaskStream) :
    ¬ (terminalTypeOf s = "run_started") := by
  unfold terminalTypeOf
  split <;> decide

theorem terminalTypeOf_ne_run_completed (s : TaskStream) :
    ¬ (terminalTypeOf s = "run_completed") := by
  unfold terminalTypeOf
  split <;> decide

theorem terminalTypeOf_or (s : TaskStream) :
    terminalTypeOf s = "model_run_completed" ∨ terminalTypeOf s = "model_run_error" := by
  unfold terminalTypeOf
  split
  · right; rfl
  · left; rfl

/-- C4: for K models (distinct ids) and R reps, `run_swarm` on a fresh
run emits exactly one `model_run_started` and exactly one terminal event
(`model_run_completed` or `model_run_error`) tagged with each
(model, rep) pair, plus exactly one `run_started` and exactly one
`run_completed` event for the run. -/
theorem C4_event_counts (rid sid : Nat) (wp : String) (models : List ModelSpec)
    (reps : Nat) (streams : String → Nat → TaskStream)
    (hnd : (models.map (·.id)).Nodup) (m0 : ModelSpec) (r0 : Nat)
    (hm : m0 ∈ models) (hr : r0 < reps)
    (evs : List (String × Option String × Option Nat))
    (hevs : evs = (run_swarm wp (createRunRecord rid sid) models reps streams).2.events.map etag) :
    evs.countP (fun x => decide (x = ("model_run_started", some m0.id, some r0))) = 1
    ∧ evs.countP (fun x => decide ((x.1 = "model_run_completed" ∨ x.1 = "model_run_error")
        ∧ x.2.1 = some m0.id ∧ x.2.2 = some r0)) = 1
    ∧ evs.countP (fun x => decide (x.1 = "run_started")) = 1
    ∧ evs.countP (fun x => decide (x.1 = "run_completed")) = 1 := by
  have hflat : ∀ (p : String × Option String × Option Nat → Bool),
      evs.countP p
        = ((if p ("run_started", none, none) then 1 else 0)
          + ((taskPairs models reps).map
              (fun tk => (taskTags tk.1 tk.2 (streams tk.1.id tk.2)).countP p)).sum)
          + (if p ("run_completed", none, none) then 1 else 0) := by
    intro p
    rw [hevs, run_swarm_snd_events_etag]
    simp only [createRunRecord, List.map_nil, List.nil_append]
    rw [List.countP_append, List.countP_cons, List.countP_flatten, List.map_map]
    simp only [List.countP_cons, List.countP_nil, Function.comp_def]
    split_ifs <;> omega
  refine ⟨?_, ?_, ?_, ?_⟩
  · rw [hflat]
    have hper : ∀ tk ∈ taskPairs models reps,
        (taskTags tk.1 tk.2 (streams tk.1.id tk.2)).countP
            (fun x => decide (x = ("model_run_started", some m0.id, some r0)))
          = if tk.1.id = m0.id ∧ tk.2 = r0 then 1 else 0 := by
      intro tk _
      rw [taskTags_countP]
      have h2 : decide ((("narration_delta", some tk.1.id, some tk.2) :
          String × Option String × Option Nat)
          = ("model_run_started", some m0.id, some r0)) = false := by simp
      have h3 : decide (((terminalTypeOf (streams tk.1.id tk.2), some tk.1.id, some tk.2) :
          String × Option String × Option Nat)
          = ("model_run_started", some m0.id, some r0)) = false := by
        simp only [decide_eq_false_iff_not]
        intro h
        exact terminalTypeOf_ne_started _ (congrArg Prod.fst h)
      rw [h2, h3]
      by_cases h : tk.1.id = m0.id ∧ tk.2 = r0
      · simp [h]
      · simp only [if_neg h]
        have : decide ((("model_run_started", some tk.1.id, some tk.2) :
            String × Option String × Option Nat)
            = ("model_run_started", some m0.id, some r0)) = false := by
          simp only [decide_eq_false_iff_not]
          intro he
          exact h (by
            have h1 := congrArg (fun t => t.2.1) he
            have h2' := congrArg (fun t => t.2.2) he
            simp at h1 h2'
            exact ⟨h1, h2'⟩)
        simp [this]
        exact fun ha hb => h ⟨ha, hb⟩
    rw [List.map_congr_left hper,
      sum_map_ite_pred (fun tk : ModelSpec × Nat => tk.1.id = m0.id ∧ tk.2 = r0),
      countP_taskPairs_tag models reps m0 r0 hnd hm hr]
    simp
  · rw [hflat]
    have hper : ∀ tk ∈ taskPairs models reps,
        (taskTags tk.1 tk.2 (streams tk.1.id tk.2)).countP
            (fun x => decide ((x.1 = "model_run_completed" ∨ x.1 = "model_run_error")
              ∧ x.2.1 = some m0.id ∧ x.2.2 = some r0))
          = if tk.1.id = m0.id ∧ tk.2 = r0 then 1 else 0 := by
      intro tk _
      rw [taskTags_countP]
      have h1 : decide ((("model_run_started" : String) = "model_run_completed"
          ∨ ("model_run_started" : String) = "model_run_error")
          ∧ (some tk.1.id = some m0.id) ∧ (some tk.2 = some r0)) = false := by
        simp
      have h2 : decide ((("narration_delta" : String) = "model_run_completed"
          ∨ ("narration_delta" : String) = "model_run_error")
          ∧ (some tk.1.id = some m0.id) ∧ (some tk.2 = some r0)) = false := by
        simp
      have h3 : decide ((terminalTypeOf (streams tk.1.id tk.2) = "model_run_completed"
          ∨ terminalTypeOf (streams tk.1.id tk.2) = "model_run_error")
          ∧ (some tk.1.id = some m0.id) ∧ (some tk.2 = some r0))
          = decide (tk.1.id = m0.id ∧ tk.2 = r0) := by
        rcases terminalTypeOf_or (streams tk.1.id tk.2) with h | h <;> simp [h]
      rw [h1, h2, h3]
      by_cases h : tk.1.id = m0.id ∧ tk.2 = r0 <;> simp [h]
    rw [List.map_congr_left hper,
      sum_map_ite_pred (fun tk : ModelSpec × Nat => tk.1.id = m0.id ∧ tk.2 = r0),
      countP_taskPairs_tag models reps m0 r0 hnd hm hr]
    simp
  · rw [hflat]
    have hper : ∀ tk ∈ taskPairs models reps,
        (taskTags tk.1 tk.2 (streams tk.1.id tk.2)).countP
            (fun x => decide (x.1 = "run_started")) = 0 := by
      intro tk _
      rw [taskTags_countP]
      have h3 : decide (terminalTypeOf (streams tk.1.id tk.2) = "run_started") = false := by
        simp only [decide_eq_false_iff_not]
        exact terminalTypeOf_ne_run_started _
      simp [h3]
    rw [List.map_congr_left hper]
    simp
  · rw [hflat]
    have hper : ∀ tk ∈ taskPairs models reps,
        (taskTags tk.1 tk.2 (streams tk.1.id tk.2)).countP
            (fun x => decide (x.1 = "run_completed")) = 0 := by
      intro tk _
      rw [taskTags_countP]
      have h3 : decide (terminalTypeOf (streams tk.1.id tk.2) = "run_completed") = false := by
        simp only [decide_eq_false_iff_not]
        exact terminalTypeOf_ne_run_completed _
      simp [h3]
    rw [List.map_congr_left hper]
    simp

/-- Witness for C4 at a concrete 2-model × 1-rep fan-out. -/
theorem C4_event_counts_witness :
    ((run_swarm "p" (createRunRecord 1 2) [modelA, modelB] 1 streamsW).2.events.map etag).countP
        (fun x => decide (x = ("model_run_started", some "alpha/m1", some 0))) = 1
    ∧ ((run_swarm "p" (createRunRecord 1 2) [modelA, modelB] 1 streamsW).2.events.map etag).countP
        (fun x => decide (x.1 = "run_completed")) = 1 := by
  have h := C4_event_counts 1 2 "p" [modelA, modelB] 1 streamsW (by decide) modelA 0
    (by decide) (by decide) _ rfl
  exact ⟨h.1, h.2.2.2⟩
